import Mathlib

/-!
Verification of the DDR generate-validate-repair pipeline
(`backend/llm_engine.py` and `backend/schemas.py`).

The Python code is shallowly embedded: JSON values become the inductive
`JValue`, Python `dict`s become insertion-ordered association lists with
Python's replace-in-place update semantics, and each Python function of the
pipeline becomes a Lean function of the same name (the leading underscore of
private helpers is dropped, since Lean reserves it).
-/

set_option maxHeartbeats 1000000

namespace DDR

/-- The opening curly brace character. -/
def braceO : Char := Char.ofNat 123

/-- The closing curly brace character. -/
def braceC : Char := Char.ofNat 125

/-! ### Python string primitives -/

/-- Left-trim: drop leading whitespace characters. -/
def stripL (cs : List Char) : List Char := cs.dropWhile Char.isWhitespace

/-- Python `str.strip()` on a character list: drop leading and trailing
whitespace.  (Python strips Unicode whitespace; `Char.isWhitespace` covers the
whitespace characters relevant to this pipeline.) -/
def stripChars (cs : List Char) : List Char :=
  (stripL (stripL cs).reverse).reverse

/-- Python `str.strip()`. -/
def pyStrip (s : String) : String := String.mk (stripChars s.toList)

/-- Python `str.lower()` (ASCII case folding; the vocabularies checked by this
pipeline are ASCII). -/
def pyLower (s : String) : String := String.mk (s.toList.map Char.toLower)

/-- Right-trim, expressed through `stripL` on the reversed list. -/
def stripR (cs : List Char) : List Char := (stripL cs.reverse).reverse

/-! ### Generic JSON-like values ("duck-typed tree") -/

/-- A generic parsed value: the codomain of `json.loads` and the type walked
by `_normalize_missing_markers` / `_coerce_to_schema_shape`.  Numbers keep
their raw lexeme: the pipeline never inspects a numeric value, it only
distinguishes mappings / sequences / strings / null from everything else. -/
inductive JValue where
  | jnull : JValue
  | jbool : Bool → JValue
  | jnum : String → JValue
  | jstr : String → JValue
  | jarr : List JValue → JValue
  | jobj : List (String × JValue) → JValue

mutual

/-- Decidable equality for `JValue` (Lean cannot auto-derive it for this
nested inductive). -/
def decEqJValue : (a b : JValue) → Decidable (a = b)
  | .jnull, .jnull => isTrue rfl
  | .jnull, .jbool _ => isFalse nofun
  | .jnull, .jnum _ => isFalse nofun
  | .jnull, .jstr _ => isFalse nofun
  | .jnull, .jarr _ => isFalse nofun
  | .jnull, .jobj _ => isFalse nofun
  | .jbool _, .jnull => isFalse nofun
  | .jbool a, .jbool b =>
    if h : a = b then isTrue (by rw [h]) else isFalse (fun he => h (JValue.jbool.inj he))
  | .jbool _, .jnum _ => isFalse nofun
  | .jbool _, .jstr _ => isFalse nofun
  | .jbool _, .jarr _ => isFalse nofun
  | .jbool _, .jobj _ => isFalse nofun
  | .jnum _, .jnull => isFalse nofun
  | .jnum _, .jbool _ => isFalse nofun
  | .jnum a, .jnum b =>
    if h : a = b then isTrue (by rw [h]) else isFalse (fun he => h (JValue.jnum.inj he))
  | .jnum _, .jstr _ => isFalse nofun
  | .jnum _, .jarr _ => isFalse nofun
  | .jnum _, .jobj _ => isFalse nofun
  | .jstr _, .jnull => isFalse nofun
  | .jstr _, .jbool _ => isFalse nofun
  | .jstr _, .jnum _ => isFalse nofun
  | .jstr a, .jstr b =>
    if h : a = b then isTrue (by rw [h]) else isFalse (fun he => h (JValue.jstr.inj he))
  | .jstr _, .jarr _ => isFalse nofun
  | .jstr _, .jobj _ => isFalse nofun
  | .jarr _, .jnull => isFalse nofun
  | .jarr _, .jbool _ => isFalse nofun
  | .jarr _, .jnum _ => isFalse nofun
  | .jarr _, .jstr _ => isFalse nofun
  | .jarr a, .jarr b =>
    match decEqJArr a b with
    | isTrue h => isTrue (by rw [h])
    | isFalse h => isFalse (fun he => h (JValue.jarr.inj he))
  | .jarr _, .jobj _ => isFalse nofun
  | .jobj _, .jnull => isFalse nofun
  | .jobj _, .jbool _ => isFalse nofun
  | .jobj _, .jnum _ => isFalse nofun
  | .jobj _, .jstr _ => isFalse nofun
  | .jobj _, .jarr _ => isFalse nofun
  | .jobj a, .jobj b =>
    match decEqJObj a b with
    | isTrue h => isTrue (by rw [h])
    | isFalse h => isFalse (fun he => h (JValue.jobj.inj he))

def decEqJArr : (a b : List JValue) → Decidable (a = b)
  | [], [] => isTrue rfl
  | [], _ :: _ => isFalse nofun
  | _ :: _, [] => isFalse nofun
  | x :: xs, y :: ys =>
    match decEqJValue x y, decEqJArr xs ys with
    | isTrue h1, isTrue h2 => isTrue (by rw [h1, h2])
    | isFalse h1, _ => isFalse (fun he => h1 (List.cons.inj he).1)
    | _, isFalse h2 => isFalse (fun he => h2 (List.cons.inj he).2)

def decEqJObj : (a b : List (String × JValue)) → Decidable (a = b)
  | [], [] => isTrue rfl
  | [], _ :: _ => isFalse nofun
  | _ :: _, [] => isFalse nofun
  | (k, v) :: xs, (k', v') :: ys =>
    match String.decEq k k', decEqJValue v v', decEqJObj xs ys with
    | isTrue h0, isTrue h1, isTrue h2 => isTrue (by rw [h0, h1, h2])
    | isFalse h0, _, _ =>
      isFalse (fun he => h0 (congrArg Prod.fst (List.cons.inj he).1))
    | _, isFalse h1, _ =>
      isFalse (fun he => h1 (congrArg Prod.snd (List.cons.inj he).1))
    | _, _, isFalse h2 => isFalse (fun he => h2 (List.cons.inj he).2)

end

instance : DecidableEq JValue := decEqJValue

deriving instance DecidableEq for Except

/-- A Python `dict` with string keys: an insertion-ordered association list. -/
abbrev PyDict := List (String × JValue)

/-- First value bound to `k` (Python `d[k]` / `d.get(k)`). -/
def pyLookup (k : String) : PyDict → Option JValue
  | [] => none
  | (k', v) :: rest => if k' = k then some v else pyLookup k rest

/-- Python `d[k] = v`: replace the value at the first occurrence of `k`,
keeping its position, or append `(k, v)` when `k` is absent. -/
def pyUpdate (k : String) (v : JValue) : PyDict → PyDict
  | [] => [(k, v)]
  | (k', v') :: rest =>
    if k' = k then (k', v) :: rest else (k', v') :: pyUpdate k v rest

/-- Python `d.setdefault(k, v)`: insert `(k, v)` at the end only when `k` is
absent. -/
def pySetdefault (k : String) (v : JValue) (d : PyDict) : PyDict :=
  match pyLookup k d with
  | some _ => d
  | none => d ++ [(k, v)]

/-- Python `d.pop(k, None)`: remove the entry for `k` when present. -/
def pyPop (k : String) : PyDict → PyDict
  | [] => []
  | (k', v') :: rest =>
    if k' = k then rest else (k', v') :: pyPop k rest

/-- `k in d`. -/
def pyContains (k : String) (d : PyDict) : Bool := (pyLookup k d).isSome

/-! ### Value Normalizer (`_normalize_missing_markers`) -/

/-- `MISSING_ALIASES` from `llm_engine.py`. -/
def MISSING_ALIASES : List String :=
  ["", "n/a", "na", "null", "none", "unknown", "not provided", "missing"]

mutual

/-- `_normalize_missing_markers`: recursively force missing aliases to
"Not Available".  Mapping keys are preserved verbatim; only values are
rewritten. -/
def normalize_missing_markers : JValue → JValue
  | .jobj l => .jobj (normalizeObj l)
  | .jarr l => .jarr (normalizeArr l)
  | .jnull => .jstr "Not Available"
  | .jstr s =>
    let cleaned := pyStrip s
    if MISSING_ALIASES.contains (pyLower cleaned) then .jstr "Not Available"
    else .jstr cleaned
  | .jbool b => .jbool b
  | .jnum n => .jnum n

/-- Normalize every element of a sequence, preserving order. -/
def normalizeArr : List JValue → List JValue
  | [] => []
  | v :: rest => normalize_missing_markers v :: normalizeArr rest

/-- Normalize every value of a mapping, preserving keys verbatim. -/
def normalizeObj : List (String × JValue) → List (String × JValue)
  | [] => []
  | (k, v) :: rest => (k, normalize_missing_markers v) :: normalizeObj rest

end

/-- `v` occurs in `t` at a value position: as the tree itself, as (a
descendant of) an element of a sequence, or as (a descendant of) the value of
a mapping entry.  Mapping keys are not value positions. -/
inductive ValOccurs : JValue → JValue → Prop where
  | refl (t : JValue) : ValOccurs t t
  | inArr {v t : JValue} {l : List JValue} :
      t ∈ l → ValOccurs v t → ValOccurs v (.jarr l)
  | inObj {v t : JValue} {l : List (String × JValue)} {k : String} :
      (k, t) ∈ l → ValOccurs v t → ValOccurs v (.jobj l)

/-- A missing-marker leaf: `null`, or a string whose trimmed lower-cased form
is in the alias set. -/
def isMissingLeaf : JValue → Bool
  | .jnull => true
  | .jstr s => MISSING_ALIASES.contains (pyLower (pyStrip s))
  | _ => false

mutual

/-- All mapping keys of a tree, in traversal order (for stating that
normalization touches no key anywhere). -/
def keysOf : JValue → List String
  | .jobj l => keysOfObj l
  | .jarr l => keysOfArr l
  | _ => []

def keysOfArr : List JValue → List String
  | [] => []
  | v :: rest => keysOf v ++ keysOfArr rest

def keysOfObj : List (String × JValue) → List String
  | [] => []
  | (k, v) :: rest => k :: (keysOf v ++ keysOfObj rest)

end

/-! ### Recursive well-formedness: all mappings have duplicate-free keys.

Python dictionaries cannot carry a duplicated key, so every tree that the
actual pipeline handles (built by `json.loads`) satisfies this predicate; it
rules out association lists that no Python value corresponds to. -/

/-- Duplicate-freeness of a key list, as a Boolean. -/
def jwfObjKeys : List String → Bool
  | [] => true
  | k :: rest => !rest.contains k && jwfObjKeys rest

/-! ### Schema Coercer (`_coerce_to_schema_shape` and `_build_default_structure`) -/

/-- `EXPECTED_TOP_LEVEL_KEYS`.  The source holds these in a Python `set`;
the iteration order of the copy loop is immaterial because every key already
exists in the default structure, so the loop only overwrites in place.  We fix
the textual order of the source. -/
def EXPECTED_TOP_LEVEL_KEYS : List String :=
  ["Property_Issue_Summary", "Area_Wise_Observations", "Probable_Root_Cause",
   "Severity_Assessment", "Recommended_Actions", "Risk_Implications",
   "Additional_Notes", "Missing_or_Unclear_Information"]

/-- The `Severity_Assessment` block of the default structure. -/
def defaultSeverity : PyDict :=
  [("overall_severity", .jstr "Not Available"),
   ("reasoning", .jstr "Not Available"),
   ("Confidence_Level", .jstr "Not Available"),
   ("Confidence_Reasoning", .jstr "Not Available")]

/-- `_build_default_structure`: schema-complete fallback dictionary. -/
def build_default_structure : PyDict :=
  [("Property_Issue_Summary", .jstr "Not Available"),
   ("Area_Wise_Observations", .jobj []),
   ("Probable_Root_Cause", .jstr "Not Available"),
   ("Severity_Assessment", .jobj defaultSeverity),
   ("Recommended_Actions", .jstr "Not Available"),
   ("Risk_Implications", .jstr "Not Available"),
   ("Additional_Notes", .jstr "Not Available"),
   ("Missing_or_Unclear_Information", .jarr [.jstr "Not Available"])]

/-- One iteration of `for key in EXPECTED_TOP_LEVEL_KEYS: if key in
normalized: completed[key] = normalized[key]`. -/
def copyStep (normalized : PyDict) (acc : PyDict) (key : String) : PyDict :=
  match pyLookup key normalized with
  | some v => pyUpdate key v acc
  | none => acc

def copyExpectedKeys (normalized : PyDict) : PyDict :=
  EXPECTED_TOP_LEVEL_KEYS.foldl (copyStep normalized) build_default_structure

/-- Replace `Area_Wise_Observations` with `{}` when it is not a mapping. -/
def fixAreaType (completed : PyDict) : PyDict :=
  match pyLookup "Area_Wise_Observations" completed with
  | some (.jobj _) => completed
  | _ => pyUpdate "Area_Wise_Observations" (.jobj []) completed

/-- `d.setdefault(k, v)` for each pair, in order. -/
def setdefaultMany (defaults : List (String × JValue)) (d : PyDict) : PyDict :=
  defaults.foldl (fun acc p => pySetdefault p.1 p.2 acc) d

/-- Replace `Severity_Assessment` with the default block when it is not a
mapping; otherwise backfill its four sub-keys and re-normalize it. -/
def fixSeverity (completed : PyDict) : PyDict :=
  match pyLookup "Severity_Assessment" completed with
  | some (.jobj sv) =>
    pyUpdate "Severity_Assessment"
      (.jobj (normalizeObj (setdefaultMany defaultSeverity sv))) completed
  | _ => pyUpdate "Severity_Assessment" (.jobj defaultSeverity) completed

/-- Force `Missing_or_Unclear_Information` to a non-empty list. -/
def fixMissing (completed : PyDict) : PyDict :=
  match pyLookup "Missing_or_Unclear_Information" completed with
  | some (.jarr l) =>
    if l.isEmpty then
      pyUpdate "Missing_or_Unclear_Information" (.jarr [.jstr "Not Available"]) completed
    else completed
  | _ => pyUpdate "Missing_or_Unclear_Information" (.jarr [.jstr "Not Available"]) completed

/-- The fully-sentinel `AreaObservation` dictionary literal used for
non-mapping area values; its pairs are also the setdefault sequence applied
to mapping-valued areas. -/
def defaultAreaFields : PyDict :=
  [("inspection_observation", .jstr "Not Available"),
   ("thermal_observation", .jstr "Not Available"),
   ("merged_finding", .jstr "Not Available"),
   ("dampness_type", .jstr "Not Available"),
   ("inspection_evidence_ref", .jstr "Not Available"),
   ("thermal_evidence_ref", .jstr "Not Available"),
   ("conflict_note", .jstr "Not Available")]

/-- The body of the area loop for a single entry value. -/
def processAreaEntry : JValue → JValue
  | .jobj m => .jobj (normalizeObj (setdefaultMany defaultAreaFields m))
  | _ => .jobj defaultAreaFields

/-- `for area, area_data in list(completed["Area_Wise_Observations"].items())`:
iterate over a snapshot of the entries, writing each processed value back. -/
def processAreaList (entries : PyDict) : PyDict :=
  entries.foldl (fun acc p => pyUpdate p.1 (processAreaEntry p.2) acc) entries

def processAreas (completed : PyDict) : PyDict :=
  match pyLookup "Area_Wise_Observations" completed with
  | some (.jobj entries) =>
    pyUpdate "Area_Wise_Observations" (.jobj (processAreaList entries)) completed
  | _ => completed

/-- The `is_placeholder_general` test: the three substantive fields all equal
the sentinel. -/
def isPlaceholderGeneral (g : PyDict) : Bool :=
  decide (pyLookup "inspection_observation" g = some (.jstr "Not Available")) &&
  decide (pyLookup "thermal_observation" g = some (.jstr "Not Available")) &&
  decide (pyLookup "merged_finding" g = some (.jstr "Not Available"))

/-- `completed["Area_Wise_Observations"].pop("General", None)` guarded by the
placeholder test: remove the `"General"` entry when it is a mapping whose
three substantive fields are all the sentinel. -/
def dropGeneralFromEntries (entries : PyDict) : PyDict :=
  match pyLookup "General" entries with
  | some (.jobj g) =>
    if isPlaceholderGeneral g then pyPop "General" entries else entries
  | _ => entries

/-- Remove the placeholder `"General"` entry when it only carries sentinels.
(Python pops the entry inside the dictionary held at the key; writing the
popped dictionary back to the key it was read from is the same value, since
a write of an unchanged value at an existing key is the identity.) -/
def dropPlaceholderGeneral (completed : PyDict) : PyDict :=
  match pyLookup "Area_Wise_Observations" completed with
  | some (.jobj entries) =>
    pyUpdate "Area_Wise_Observations" (.jobj (dropGeneralFromEntries entries)) completed
  | _ => completed

/-- An optional field value that the pipeline turns into the sentinel:
absent, or normalizing to "Not Available" (null, a missing alias, or the
sentinel itself). -/
def becomesSentinel (o : Option JValue) : Prop :=
  ∀ v, o = some v → normalize_missing_markers v = .jstr "Not Available"

/-- `_coerce_to_schema_shape`: fill missing keys and ensure nested structures
are present, in the exact stage order of the source. -/
def coerce_to_schema_shape (data : PyDict) : PyDict :=
  dropPlaceholderGeneral
    (processAreas
      (fixMissing
        (fixSeverity
          (fixAreaType
            (copyExpectedKeys (normalizeObj data))))))

/-! ### Strict Validator (`schemas.py`)

Pydantic is embedded as explicit `Except`-valued validation functions.
Pydantic collects all field errors before failing; the embedding stops at the
first one, which induces the same accept/reject behavior and the same
resulting value on acceptance.  Error message texts are abridged.  Pydantic
does not run field validators on a default value that is used because the
field is absent; since every default here (`"Not Available"`) passes its
validators unchanged, running them unconditionally is equivalent. -/

/-- Typed area observation (the `AreaObservation` pydantic model). -/
structure AreaObservation where
  inspection_observation : String
  thermal_observation : String
  merged_finding : String
  dampness_type : String
  inspection_evidence_ref : String
  thermal_evidence_ref : String
  conflict_note : String
  deriving DecidableEq, Repr

/-- Typed severity assessment (the `SeverityAssessment` pydantic model). -/
structure SeverityAssessment where
  overall_severity : String
  reasoning : String
  Confidence_Level : String
  Confidence_Reasoning : String
  deriving DecidableEq, Repr

/-- Typed report (the `DDRReport` pydantic model). -/
structure DDRReport where
  Property_Issue_Summary : String
  Area_Wise_Observations : List (String × AreaObservation)
  Probable_Root_Cause : String
  Severity_Assessment : SeverityAssessment
  Recommended_Actions : String
  Risk_Implications : String
  Additional_Notes : String
  Missing_or_Unclear_Information : List String
  deriving DecidableEq, Repr

/-- `MISSING_VALUE_ALIASES` from `schemas.py` (no empty string: emptiness is
reported separately). -/
def MISSING_VALUE_ALIASES : List String :=
  ["n/a", "na", "none", "null", "unknown", "not provided", "missing"]

/-- `_validate_non_empty`: strip, reject empties and bare missing aliases,
return the cleaned value. -/
def validate_non_empty (value fieldName : String) : Except String String :=
  let cleaned := pyStrip value
  if cleaned = "" then .error (fieldName ++ " cannot be empty.")
  else if MISSING_VALUE_ALIASES.contains (pyLower cleaned) then
    .error (fieldName ++ " uses an invalid missing marker. Use Not Available instead.")
  else .ok cleaned

/-- The closed `dampness_type` vocabulary (lower-cased). -/
def allowedDampness : List String :=
  ["rising damp", "rising damp (probable)", "penetrating damp",
   "penetrating damp (probable)", "plumbing leakage damp",
   "plumbing leakage damp (probable)", "not available"]

/-- Split a character list on a separator character; Python `split` with a
one-character separator: no collapsing, and the empty string yields `[""]`. -/
def splitOnCharAux (sep : Char) : List Char → List Char → List (List Char)
  | [], acc => [acc.reverse]
  | c :: rest, acc =>
    if c = sep then acc.reverse :: splitOnCharAux sep rest []
    else splitOnCharAux sep rest (c :: acc)

def commaChar : Char := ','

/-- Python `value.split(",")`. -/
def pySplitComma (s : String) : List String :=
  (splitOnCharAux commaChar s.toList []).map String.mk

/-- `[part.strip().lower() for part in value.split(",")]`. -/
def dampnessParts (value : String) : List String :=
  (pySplitComma value).map (fun part => pyLower (pyStrip part))

/-- `validate_dampness_type`: every comma-separated component must be in the
closed vocabulary.  (Python `split` never returns an empty list, so the
`if not parts` branch is dead code, kept for fidelity.) -/
def validate_dampness_type (value : String) : Except String String :=
  let parts := dampnessParts value
  if parts.isEmpty then .error "dampness_type cannot be empty."
  else if parts.all (fun p => allowedDampness.contains p) then .ok value
  else .error ("dampness_type must use Rising/Penetrating/Plumbing Leakage Damp" ++
    " with optional (Probable), or Not Available.")

def allowedSeverity : List String :=
  ["low", "low to moderate", "moderate", "moderate to high", "high", "not available"]

/-- `validate_overall_severity`. -/
def validate_overall_severity (value : String) : Except String String :=
  if allowedSeverity.contains (pyLower (pyStrip value)) then .ok value
  else .error ("overall_severity must be Low, Low to Moderate, Moderate," ++
    " Moderate to High, High, or Not Available.")

def allowedConfidence : List String := ["high", "medium", "low", "not available"]

/-- `validate_confidence_level`. -/
def validate_confidence_level (value : String) : Except String String :=
  if allowedConfidence.contains (pyLower (pyStrip value)) then .ok value
  else .error "Confidence_Level must be High, Medium, Low, or Not Available."

/-- Fetch a required string field (pydantic: absent or non-string fails). -/
def getRequiredStr (m : PyDict) (name : String) : Except String String :=
  match pyLookup name m with
  | some (.jstr s) => .ok s
  | some _ => .error (name ++ " must be a string.")
  | none => .error (name ++ " is required.")

/-- Fetch a string field with a default for absence. -/
def getDefaultedStr (m : PyDict) (name default : String) : Except String String :=
  match pyLookup name m with
  | some (.jstr s) => .ok s
  | some _ => .error (name ++ " must be a string.")
  | none => .ok default

/-- `AreaObservation.model_validate`: type-check the 7 string fields and run
the field validators in definition order. -/
def AreaObservation.model_validate : JValue → Except String AreaObservation
  | .jobj m => do
    let io0 ← getRequiredStr m "inspection_observation"
    let io ← validate_non_empty io0 "inspection_observation"
    let th0 ← getRequiredStr m "thermal_observation"
    let th ← validate_non_empty th0 "thermal_observation"
    let mf0 ← getRequiredStr m "merged_finding"
    let mf ← validate_non_empty mf0 "merged_finding"
    let dt0 ← getDefaultedStr m "dampness_type" "Not Available"
    let dt1 ← validate_non_empty dt0 "dampness_type"
    let dt ← validate_dampness_type dt1
    let ier0 ← getDefaultedStr m "inspection_evidence_ref" "Not Available"
    let ier ← validate_non_empty ier0 "inspection_evidence_ref"
    let ter0 ← getDefaultedStr m "thermal_evidence_ref" "Not Available"
    let ter ← validate_non_empty ter0 "thermal_evidence_ref"
    let cn0 ← getDefaultedStr m "conflict_note" "Not Available"
    let cn ← validate_non_empty cn0 "conflict_note"
    .ok ⟨io, th, mf, dt, ier, ter, cn⟩
  | _ => .error "AreaObservation must be a mapping."

/-- `SeverityAssessment.model_validate`. -/
def SeverityAssessment.model_validate : JValue → Except String SeverityAssessment
  | .jobj m => do
    let os0 ← getRequiredStr m "overall_severity"
    let os1 ← validate_non_empty os0 "overall_severity"
    let os ← validate_overall_severity os1
    let re0 ← getRequiredStr m "reasoning"
    let re ← validate_non_empty re0 "reasoning"
    let cl0 ← getRequiredStr m "Confidence_Level"
    let cl1 ← validate_non_empty cl0 "Confidence_Level"
    let cl ← validate_confidence_level cl1
    let cr0 ← getRequiredStr m "Confidence_Reasoning"
    let cr ← validate_non_empty cr0 "Confidence_Reasoning"
    .ok ⟨os, re, cl, cr⟩
  | _ => .error "Severity_Assessment must be a mapping."

/-- Validate every area value as an `AreaObservation`, preserving keys. -/
def validateAreaEntries : List (String × JValue) →
    Except String (List (String × AreaObservation))
  | [] => .ok []
  | (k, v) :: rest => do
    let a ← AreaObservation.model_validate v
    let tl ← validateAreaEntries rest
    .ok ((k, a) :: tl)

/-- The `is-placeholder` test of `DDRReport.validate_area_observations`. -/
def generalPlaceholderArea (a : AreaObservation) : Bool :=
  decide (pyStrip a.inspection_observation = "Not Available") &&
  decide (pyStrip a.thermal_observation = "Not Available") &&
  decide (pyStrip a.merged_finding = "Not Available")

/-- The key loop of `DDRReport.validate_area_observations`. -/
def checkAreaEntries : List (String × AreaObservation) → Except String Unit
  | [] => .ok ()
  | (k, a) :: rest =>
    if pyStrip k = "" then
      .error "Area_Wise_Observations contains an empty area name."
    else if pyLower (pyStrip k) = "general" ∧ generalPlaceholderArea a then
      .error "Placeholder General area with no valid observations is not allowed."
    else checkAreaEntries rest

/-- `DDRReport.validate_area_observations`: reject empty area names and a
surviving all-sentinel `General` placeholder; return the value unchanged. -/
def validate_area_observations (value : List (String × AreaObservation)) :
    Except String (List (String × AreaObservation)) :=
  match checkAreaEntries value with
  | .ok _ => .ok value
  | .error e => .error e

/-- `DDRReport.validate_missing_info_list`: each item non-empty, stripped. -/
def validate_missing_info_list : List String → Except String (List String)
  | [] => .ok []
  | item :: rest =>
    let cleaned := pyStrip item
    if cleaned = "" then
      .error "Missing_or_Unclear_Information contains an empty item."
    else do
      let tl ← validate_missing_info_list rest
      .ok (cleaned :: tl)

/-- Coerce a JSON list to `List[str]` (pydantic: non-string items fail). -/
def asStrList : List JValue → Except String (List String)
  | [] => .ok []
  | .jstr s :: rest => do
    let tl ← asStrList rest
    .ok (s :: tl)
  | _ :: _ => .error "Missing_or_Unclear_Information items must be strings."

/-- `DDRReport.model_validate`: the strict whole-document validator. -/
def DDRReport.model_validate (d : PyDict) : Except String DDRReport := do
  let pis0 ← getRequiredStr d "Property_Issue_Summary"
  let pis ← validate_non_empty pis0 "Property_Issue_Summary"
  let awo0 ← (match pyLookup "Area_Wise_Observations" d with
    | some (.jobj l) => validateAreaEntries l
    | some _ => .error "Area_Wise_Observations must be a mapping."
    | none => .error "Area_Wise_Observations is required.")
  let awo ← validate_area_observations awo0
  let prc0 ← getRequiredStr d "Probable_Root_Cause"
  let prc ← validate_non_empty prc0 "Probable_Root_Cause"
  let sev ← (match pyLookup "Severity_Assessment" d with
    | some v => SeverityAssessment.model_validate v
    | none => .error "Severity_Assessment is required.")
  let ra0 ← getRequiredStr d "Recommended_Actions"
  let ra ← validate_non_empty ra0 "Recommended_Actions"
  let ri0 ← getRequiredStr d "Risk_Implications"
  let ri ← validate_non_empty ri0 "Risk_Implications"
  let an0 ← getRequiredStr d "Additional_Notes"
  let an ← validate_non_empty an0 "Additional_Notes"
  let mi0 ← (match pyLookup "Missing_or_Unclear_Information" d with
    | some (.jarr l) => asStrList l
    | some _ => .error "Missing_or_Unclear_Information must be a list."
    | none => .error "Missing_or_Unclear_Information is required.")
  let mi ← validate_missing_info_list mi0
  .ok ⟨pis, awo, prc, sev, ra, ri, an, mi⟩

/-- `isOk` discriminator for `Except`. -/
def exceptOk {ε α : Type} : Except ε α → Bool
  | .ok _ => true
  | .error _ => false

/-! ### Payload Extractor (`_extract_json_payload`) -/

/-- `cs` begins with the pattern `pat`. -/
def listStartsWith : List Char → List Char → Bool
  | [], _ => true
  | _ :: _, [] => false
  | p :: ps, c :: cs => p = c && listStartsWith ps cs

/-- `cs` ends with the pattern `pat`. -/
def listEndsWith (pat cs : List Char) : Bool :=
  listStartsWith pat.reverse cs.reverse

/-- Index of the first occurrence of a character. -/
def firstIdxOf (c : Char) : List Char → Option Nat
  | [] => none
  | a :: rest => if a = c then some 0 else (firstIdxOf c rest).map (· + 1)

/-- Index of the last occurrence of a character. -/
def lastIdxOf (c : Char) (cs : List Char) : Option Nat :=
  (firstIdxOf c cs.reverse).map (fun i => cs.length - 1 - i)

/-- Semantics of `re.search(r"\x7b.*\x7d", candidate, flags=re.DOTALL)`: the
leftmost match must start at the first opening brace, and the greedy `.*`
(which crosses newlines under DOTALL) extends it to the last closing brace of
the whole text; a match exists iff some closing brace lies strictly after the
first opening brace. -/
def regexSearchBraceSpan (cs : List Char) : Option (List Char) :=
  match firstIdxOf braceO cs with
  | none => none
  | some i =>
    match lastIdxOf braceC cs with
    | none => none
    | some j => if i < j then some ((cs.drop i).take (j - i + 1)) else none

/-- `_extract_json_payload`: extract JSON from model output, handling
accidental wrappers. -/
def extract_json_payload (raw : String) : Except String String :=
  let candidate := stripChars raw.toList
  match listStartsWith [braceO] candidate && listEndsWith [braceC] candidate with
  | true => .ok (String.mk candidate)
  | false =>
    match regexSearchBraceSpan candidate with
    | some span => .ok (String.mk span)
    | none => .error "No JSON object found in model response."

/-! ### A JSON parser modelling Python `json.loads`.

`json.loads` is standard-library code, not part of this repository; the
pipeline only relies on it implementing the JSON grammar.  This recursive
descent parser keeps the properties the pipeline depends on: a text whose
first non-space character is an opening brace parses to a mapping or fails;
duplicate object keys follow Python semantics (last value wins, first
position kept); trailing non-whitespace data is an error.  Number lexemes are
kept as raw text (`JValue.jnum`), since the pipeline never inspects numeric
values. -/

def skipWs (cs : List Char) : List Char := cs.dropWhile Char.isWhitespace

def quoteChar : Char := Char.ofNat 34

def backslashChar : Char := Char.ofNat 92

def hexDigitVal (c : Char) : Option Nat :=
  if c.isDigit then some (c.toNat - 48)
  else if 97 ≤ c.toNat && c.toNat ≤ 102 then some (c.toNat - 87)
  else if 65 ≤ c.toNat && c.toNat ≤ 70 then some (c.toNat - 55)
  else none

/-- Characters that may appear in a JSON number lexeme. -/
def isNumChar (c : Char) : Bool :=
  c.isDigit || c = '-' || c = '+' || c = '.' || c = 'e' || c = 'E'

mutual

/-- Parse one JSON value from the input (fuel decreases at every step; the
initial fuel `length + 1` always suffices because every step consumes at
least one character). -/
def parseValue : Nat → List Char → Except String (JValue × List Char)
  | 0, _ => .error "Expecting value: fuel exhausted"
  | fuel + 1, cs =>
    match skipWs cs with
    | [] => .error "Expecting value: end of input"
    | c :: rest =>
      if c = braceO then
        match skipWs rest with
        | c' :: rest' =>
          if c' = braceC then .ok (.jobj [], rest')
          else parseMembers fuel (c' :: rest') []
        | [] => .error "Expecting property name: end of input"
      else if c = '[' then
        match skipWs rest with
        | c' :: rest' =>
          if c' = ']' then .ok (.jarr [], rest')
          else parseElements fuel (c' :: rest') []
        | [] => .error "Expecting value: end of input"
      else if c = quoteChar then
        match parseStr fuel rest [] with
        | .ok (s, rest') => .ok (.jstr s, rest')
        | .error e => .error e
      else if listStartsWith "true".toList (c :: rest) then
        .ok (.jbool true, (c :: rest).drop 4)
      else if listStartsWith "false".toList (c :: rest) then
        .ok (.jbool false, (c :: rest).drop 5)
      else if listStartsWith "null".toList (c :: rest) then
        .ok (.jnull, (c :: rest).drop 4)
      else if c.isDigit || c = '-' then
        let lexeme := (c :: rest).takeWhile isNumChar
        .ok (.jnum (String.mk lexeme), (c :: rest).drop lexeme.length)
      else .error "Expecting value"

/-- Parse the body of a string literal (after the opening quote). -/
def parseStr : Nat → List Char → List Char → Except String (String × List Char)
  | 0, _, _ => .error "Unterminated string: fuel exhausted"
  | fuel + 1, cs, acc =>
    match cs with
    | [] => .error "Unterminated string"
    | c :: rest =>
      if c = quoteChar then .ok (String.mk acc.reverse, rest)
      else if c = backslashChar then
        match rest with
        | [] => .error "Unterminated string escape"
        | e :: rest' =>
          if e = 'n' then parseStr fuel rest' (Char.ofNat 10 :: acc)
          else if e = 't' then parseStr fuel rest' (Char.ofNat 9 :: acc)
          else if e = 'r' then parseStr fuel rest' (Char.ofNat 13 :: acc)
          else if e = 'b' then parseStr fuel rest' (Char.ofNat 8 :: acc)
          else if e = 'f' then parseStr fuel rest' (Char.ofNat 12 :: acc)
          else if e = 'u' then
            match rest' with
            | h1 :: h2 :: h3 :: h4 :: rest'' =>
              match hexDigitVal h1, hexDigitVal h2, hexDigitVal h3, hexDigitVal h4 with
              | some a, some b, some c3, some d =>
                parseStr fuel rest'' (Char.ofNat (a * 4096 + b * 256 + c3 * 16 + d) :: acc)
              | _, _, _, _ => .error "Invalid unicode escape"
            | _ => .error "Invalid unicode escape"
          else if e = quoteChar || e = backslashChar || e = '/' then
            parseStr fuel rest' (e :: acc)
          else .error "Invalid escape"
      else parseStr fuel rest (c :: acc)

/-- Parse object members, starting at a property name. -/
def parseMembers : Nat → List Char → PyDict → Except String (JValue × List Char)
  | 0, _, _ => .error "Expecting property name: fuel exhausted"
  | fuel + 1, cs, acc =>
    match cs with
    | c :: rest =>
      if c = quoteChar then
        match parseStr fuel rest [] with
        | .error e => .error e
        | .ok (key, rest') =>
          match skipWs rest' with
          | c' :: rest'' =>
            if c' = ':' then
              match parseValue fuel rest'' with
              | .error e => .error e
              | .ok (v, rest3) =>
                let acc' := pyUpdate key v acc
                match skipWs rest3 with
                | c4 :: rest4 =>
                  if c4 = ',' then
                    match skipWs rest4 with
                    | c5 :: rest5 => parseMembers fuel (c5 :: rest5) acc'
                    | [] => .error "Expecting property name: end of input"
                  else if c4 = braceC then .ok (.jobj acc', rest4)
                  else .error "Expecting comma delimiter"
                | [] => .error "Unterminated object"
            else .error "Expecting colon delimiter"
          | [] => .error "Unterminated object"
      else .error "Expecting property name"
    | [] => .error "Expecting property name: end of input"

/-- Parse array elements, starting at a value. -/
def parseElements : Nat → List Char → List JValue → Except String (JValue × List Char)
  | 0, _, _ => .error "Expecting value: fuel exhausted"
  | fuel + 1, cs, acc =>
    match parseValue fuel cs with
    | .error e => .error e
    | .ok (v, rest) =>
      match skipWs rest with
      | c :: rest' =>
        if c = ',' then parseElements fuel rest' (v :: acc)
        else if c = ']' then .ok (.jarr (acc.reverse ++ [v]), rest')
        else .error "Expecting comma delimiter"
      | [] => .error "Unterminated array"

end

/-- `json.loads`: parse a complete JSON document; trailing data is an
error. -/
def json_loads (s : String) : Except String JValue :=
  match parseValue (s.toList.length + 1) s.toList with
  | .error e => .error e
  | .ok (v, rest) =>
    match skipWs rest with
    | [] => .ok v
    | _ => .error "Extra data"

/-! ### String replacement (prompt assembly) -/

def replaceAllAux : Nat → List Char → List Char → List Char → List Char
  | 0, _, _, cs => cs
  | _ + 1, _, _, [] => []
  | fuel + 1, pat, repl, c :: rest =>
    if listStartsWith pat (c :: rest) then
      repl ++ replaceAllAux fuel pat repl ((c :: rest).drop pat.length)
    else
      c :: replaceAllAux fuel pat repl rest

/-- Python `s.replace(pat, repl)` for a non-empty pattern (the patterns used
by the orchestrator are the two fixed placeholder tokens). -/
def pyReplace (s pat repl : String) : String :=
  if pat = "" then s
  else String.mk (replaceAllAux (s.toList.length + 1) pat.toList repl.toList s.toList)

/-! ### Transport (`_call_openrouter`) and Retry Orchestrator (`generate_ddr`)

The HTTP round-trip performed by `requests.post` is abstracted by a `world`
function mapping the prompt that is sent to the outcome of the request: an
exception or an HTTP status plus response body.  The URL, headers and JSON
request body built around the prompt carry no information the pipeline ever
reads back. -/

/-- What the outside world does with one request. -/
inductive RequestOutcome where
  | exn : String → RequestOutcome
  | resp : Nat → String → RequestOutcome
  deriving DecidableEq, Repr

/-- Error classification of `_call_openrouter`: `LLMQuotaExceededError`,
`LLMAuthError`, and the base `LLMGenerationError`. -/
inductive CallError where
  | quota : String → CallError
  | auth : String → CallError
  | generation : String → CallError
  deriving DecidableEq, Repr

/-- Python `repr` of a decoded JSON value (used by `str(...)` fallbacks in
`_extract_openrouter_error`; float lexemes are kept verbatim). -/
def joinWith (sep : String) : List String → String
  | [] => ""
  | [s] => s
  | s :: rest => s ++ sep ++ joinWith sep rest

def aposStr : String := String.mk [Char.ofNat 39]

mutual

def jRepr : JValue → String
  | .jnull => "None"
  | .jbool true => "True"
  | .jbool false => "False"
  | .jnum s => s
  | .jstr s => aposStr ++ s ++ aposStr
  | .jarr l => "[" ++ joinWith ", " (jReprArr l) ++ "]"
  | .jobj l =>
    String.mk [braceO] ++ joinWith ", " (jReprObj l) ++ String.mk [braceC]

def jReprArr : List JValue → List String
  | [] => []
  | v :: rest => jRepr v :: jReprArr rest

def jReprObj : List (String × JValue) → List String
  | [] => []
  | (k, v) :: rest => (aposStr ++ k ++ aposStr ++ ": " ++ jRepr v) :: jReprObj rest

end

/-- Python `str(...)` of a decoded JSON value. -/
def jStr : JValue → String
  | .jstr s => s
  | v => jRepr v

/-- Python truthiness of a decoded JSON value (a number is falsy when its
mantissa is zero). -/
def jTruthy : JValue → Bool
  | .jnull => false
  | .jbool b => b
  | .jnum s => (s.toList.takeWhile (fun c => c ≠ 'e' && c ≠ 'E')).any
      (fun c => c.isDigit && c ≠ '0')
  | .jstr s => s ≠ ""
  | .jarr l => !l.isEmpty
  | .jobj l => !l.isEmpty

/-- `_extract_openrouter_error`: cleanest error message from a response
body. -/
def extract_openrouter_error (body : String) : String :=
  match json_loads body with
  | .error _ => if body = "" then "Unknown OpenRouter error." else body
  | .ok payload =>
    match payload with
    | .jobj pl =>
      match pyLookup "error" pl with
      | some (.jobj el) =>
        (match pyLookup "message" el with
         | some m =>
           if jTruthy m then jStr m
           else
             match pyLookup "message" pl with
             | some m' => if jTruthy m' then jStr m' else jStr payload
             | none => jStr payload
         | none =>
           match pyLookup "message" pl with
           | some m' => if jTruthy m' then jStr m' else jStr payload
           | none => jStr payload)
      | _ =>
        match pyLookup "message" pl with
        | some m' => if jTruthy m' then jStr m' else jStr payload
        | none => jStr payload
    | _ => jStr payload

/-- `data["choices"][0]["message"]["content"]`, `None` when any step fails
(the Python code wraps the chain in a broad `except`). -/
def getChoicesContent (data : JValue) : Option JValue :=
  match data with
  | .jobj dl =>
    match pyLookup "choices" dl with
    | some (.jarr (first :: _)) =>
      match first with
      | .jobj fl =>
        match pyLookup "message" fl with
        | some (.jobj ml) => pyLookup "content" ml
        | _ => none
      | _ => none
    | _ => none
  | _ => none

/-- `_call_openrouter`: classify the outcome of one transport request and
return the assistant content text on success. -/
def call_openrouter (o : RequestOutcome) : Except CallError String :=
  match o with
  | .exn msg => .error (.generation ("OpenRouter request failed: " ++ msg))
  | .resp status body =>
    if status = 429 then
      .error (.quota ("OpenRouter quota/rate limit exceeded (HTTP 429): " ++
        extract_openrouter_error body))
    else if status = 401 || status = 403 then
      .error (.auth ("OpenRouter authentication/authorization failed (" ++
        toString status ++ "): " ++ extract_openrouter_error body))
    else if status ≥ 400 then
      .error (.generation ("OpenRouter request failed (" ++ toString status ++ "): " ++
        extract_openrouter_error body))
    else
      match json_loads body with
      | .error _ => .error (.generation "OpenRouter returned non-JSON response.")
      | .ok data =>
        match getChoicesContent data with
        | none => .error (.generation "OpenRouter response missing choices/message/content.")
        | some (.jstr s) =>
          if pyStrip s = "" then
            .error (.generation "OpenRouter returned empty assistant content.")
          else .ok s
        | some _ => .error (.generation "OpenRouter returned empty assistant content.")

/-- The errors the retry loop catches: `ValueError` (extraction),
`json.JSONDecodeError` (parse), pydantic `ValidationError`, and the generic
`LLMGenerationError` a transport call raises.  `LLMQuotaExceededError` and
`LLMAuthError` are re-raised before this classification applies. -/
inductive AttemptError where
  | extraction : String → AttemptError
  | parse : String → AttemptError
  | validation : String → AttemptError
  | transport : String → AttemptError
  deriving DecidableEq, Repr

/-- The failure classes the spec calls pipeline failures. -/
def AttemptError.isPipelineFailure : AttemptError → Bool
  | .extraction _ => true
  | .parse _ => true
  | .validation _ => true
  | .transport _ => false

/-- `_parse_and_validate`: extraction, JSON parse, coercion, validation.
An extracted payload always begins with an opening brace, so a successful
parse always yields an object; the non-object fallback is unreachable. -/
def parse_and_validate (raw : String) : Except AttemptError DDRReport :=
  match extract_json_payload raw with
  | .error m => .error (.extraction m)
  | .ok payload =>
    match json_loads payload with
    | .error m => .error (.parse m)
    | .ok (.jobj parsed) =>
      match DDRReport.model_validate (coerce_to_schema_shape parsed) with
      | .ok r => .ok r
      | .error m => .error (.validation m)
    | .ok _ => .error (.parse "payload did not parse to an object")

/-- What `generate_ddr` can raise: the two re-raised transport
classifications, and the terminal wrapper ("Failed to generate a valid DDR
JSON response") carrying the last underlying cause. -/
inductive GenError where
  | quota : String → GenError
  | auth : String → GenError
  | failed : AttemptError → GenError
  deriving DecidableEq, Repr

def MAX_INPUT_CHARS_PER_REPORT : Nat := 20000

/-- The fixed corrective suffix appended for the retry attempt. -/
def RETRY_SUFFIX : String :=
  "\n\nYour previous response was invalid. Return ONLY a valid JSON object with the exact schema."

def pyTake (s : String) (n : Nat) : String := String.mk (s.toList.take n)

/-- The base prompt: the template (the literal of `prompts.py`, whose text
never influences control flow, stays a parameter) with both report slices
substituted by direct token replacement. -/
def basePromptOf (template inspection thermal : String) : String :=
  pyReplace
    (pyReplace template "{inspection_text}" (pyTake inspection MAX_INPUT_CHARS_PER_REPORT))
    "{thermal_text}" (pyTake thermal MAX_INPUT_CHARS_PER_REPORT)

/-- The second loop iteration (`attempt == 1`): the corrective suffix is
appended, and any caught failure becomes terminal.  The first attempt's
error is superseded, exactly as `last_error` is overwritten. -/
def generate_ddr_second (world : String → RequestOutcome) (base : String)
    (_first : AttemptError) : Except GenError DDRReport × List String :=
  let p2 := base ++ RETRY_SUFFIX
  match call_openrouter (world p2) with
  | .error (.quota m) => (.error (.quota m), [base, p2])
  | .error (.auth m) => (.error (.auth m), [base, p2])
  | .error (.generation m) => (.error (.failed (.transport m)), [base, p2])
  | .ok raw =>
    match parse_and_validate raw with
    | .ok r => (.ok r, [base, p2])
    | .error e => (.error (.failed e), [base, p2])

/-- `generate_ddr`: the two-attempt retry loop, unrolled.  The result is
paired with the list of prompts sent, one per transport call, so call-count
properties are part of the returned value. -/
def generate_ddr (world : String → RequestOutcome) (template inspection thermal : String) :
    Except GenError DDRReport × List String :=
  let base := basePromptOf template inspection thermal
  match call_openrouter (world base) with
  | .error (.quota m) => (.error (.quota m), [base])
  | .error (.auth m) => (.error (.auth m), [base])
  | .error (.generation m) => generate_ddr_second world base (.transport m)
  | .ok raw =>
    match parse_and_validate raw with
    | .ok r => (.ok r, [base])
    | .error e => generate_ddr_second world base e

mutual

def jwf : JValue → Bool
  | .jobj l => jwfObjKeys (l.map Prod.fst) && jwfObj l
  | .jarr l => jwfArr l
  | _ => true

def jwfArr : List JValue → Bool
  | [] => true
  | v :: rest => jwf v && jwfArr rest

def jwfObj : List (String × JValue) → Bool
  | [] => true
  | (_, v) :: rest => jwf v && jwfObj rest

end

/-- A concrete schema-shaped document that passes the strict validator even
though one of its string fields carries surrounding whitespace: the field
validators strip values only transiently and never mutate the document. -/
def validUntrimmedDoc : PyDict :=
  [("Property_Issue_Summary", .jstr " Leaky roof "),
   ("Area_Wise_Observations", .jobj []),
   ("Probable_Root_Cause", .jstr "Seepage through the terrace slab"),
   ("Severity_Assessment", .jobj
     [("overall_severity", .jstr "High"),
      ("reasoning", .jstr "Widespread staining"),
      ("Confidence_Level", .jstr "Medium"),
      ("Confidence_Reasoning", .jstr "Both sources agree")]),
   ("Recommended_Actions", .jstr "Repair the waterproofing layer"),
   ("Risk_Implications", .jstr "Structural damage over time"),
   ("Additional_Notes", .jstr "Inspect again after monsoon"),
   ("Missing_or_Unclear_Information", .jarr [.jstr "Roof access details"])]


/-! ### Dict and string lemmas -/

/-! ### Dict lemmas -/

theorem pyLookup_pyUpdate_self (k : String) (v : JValue) (d : PyDict) :
    pyLookup k (pyUpdate k v d) = some v := by
  induction d with
  | nil => simp [pyUpdate, pyLookup]
  | cons hd tl ih =>
    obtain ⟨k', v'⟩ := hd
    by_cases h : k' = k <;> simp [pyUpdate, pyLookup, h, ih]

theorem pyLookup_pyUpdate_ne (k k' : String) (hne : k' ≠ k) (v : JValue) (d : PyDict) :
    pyLookup k (pyUpdate k' v d) = pyLookup k d := by
  induction d with
  | nil => simp [pyUpdate, pyLookup, hne]
  | cons hd tl ih =>
    obtain ⟨k₀, v₀⟩ := hd
    by_cases h : k₀ = k'
    · subst h
      have hne' : k₀ ≠ k := hne
      simp [pyUpdate, pyLookup, hne']
    · by_cases h2 : k₀ = k
      · subst h2
        simp [pyUpdate, pyLookup, h, Ne.symm hne]
      · simp [pyUpdate, pyLookup, h, h2, ih]

/-- Re-writing a key with the value it already has is a no-op. -/
theorem pyUpdate_lookup_self {k : String} {v : JValue} {d : PyDict}
    (h : pyLookup k d = some v) : pyUpdate k v d = d := by
  induction d with
  | nil => simp [pyLookup] at h
  | cons hd tl ih =>
    obtain ⟨k', v'⟩ := hd
    by_cases hk : k' = k
    · subst hk
      simp [pyLookup] at h
      simp [pyUpdate, h]
    · simp [pyLookup, hk] at h
      simp [pyUpdate, hk, ih h]

/-- Updating an existing key preserves the key sequence. -/
theorem keys_pyUpdate {k : String} {d : PyDict} (v : JValue)
    (h : (pyLookup k d).isSome) : (pyUpdate k v d).map Prod.fst = d.map Prod.fst := by
  induction d with
  | nil => simp [pyLookup] at h
  | cons hd tl ih =>
    obtain ⟨k', v'⟩ := hd
    by_cases hk : k' = k
    · simp [pyUpdate, hk]
    · simp [pyLookup, hk] at h
      simp [pyUpdate, hk, ih h]

theorem pyLookup_eq_some_of_mem_nodup {k : String} {v : JValue} {d : PyDict}
    (hmem : (k, v) ∈ d) (hnd : (d.map Prod.fst).Nodup) : pyLookup k d = some v := by
  induction d with
  | nil => simp at hmem
  | cons hd tl ih =>
    obtain ⟨k', v'⟩ := hd
    simp only [List.map_cons, List.nodup_cons] at hnd
    rcases List.mem_cons.mp hmem with heq | htl
    · obtain ⟨h1, h2⟩ := Prod.mk.injEq .. ▸ heq
      cases heq
      simp [pyLookup]
    · have hne : k' ≠ k := by
        intro h
        subst h
        exact hnd.1 (List.mem_map_of_mem Prod.fst htl)
      simp [pyLookup, hne, ih htl hnd.2]

theorem pyLookup_mem {k : String} {v : JValue} {d : PyDict}
    (h : pyLookup k d = some v) : (k, v) ∈ d := by
  induction d with
  | nil => simp [pyLookup] at h
  | cons hd tl ih =>
    obtain ⟨k', v'⟩ := hd
    by_cases hk : k' = k
    · subst hk
      simp [pyLookup] at h
      simp [h]
    · simp [pyLookup, hk] at h
      exact List.mem_cons_of_mem _ (ih h)


/-! ### Basic string lemmas -/

theorem dropWhile_dropWhile (p : Char → Bool) (cs : List Char) :
    (cs.dropWhile p).dropWhile p = cs.dropWhile p := by
  induction cs with
  | nil => rfl
  | cons c rest ih =>
    by_cases h : p c <;> simp [List.dropWhile, h, ih]

theorem stripL_idem (cs : List Char) : stripL (stripL cs) = stripL cs :=
  dropWhile_dropWhile _ cs

/-- The head of a left-trimmed list is not whitespace. -/
theorem stripL_head_not_ws (cs : List Char) (c : Char) (h : (stripL cs).head? = some c) :
    c.isWhitespace = false := by
  induction cs with
  | nil => simp [stripL, List.dropWhile] at h
  | cons c0 rest ih =>
    by_cases hw : c0.isWhitespace
    · exact ih (by simpa [stripL, List.dropWhile, hw] using h)
    · simp [stripL, List.dropWhile, hw] at h
      subst h
      simpa using hw

theorem stripL_of_head_not_ws (cs : List Char)
    (h : ∀ c, cs.head? = some c → c.isWhitespace = false) : stripL cs = cs := by
  cases cs with
  | nil => rfl
  | cons c rest => simp [stripL, List.dropWhile, h c rfl]


theorem stripChars_eq (cs : List Char) : stripChars cs = stripR (stripL cs) := rfl

theorem stripR_idem (cs : List Char) : stripR (stripR cs) = stripR cs := by
  simp [stripR, stripL_idem]

theorem getLast?_dropWhile (p : Char → Bool) (cs : List Char)
    (h : cs.dropWhile p ≠ []) : (cs.dropWhile p).getLast? = cs.getLast? := by
  induction cs with
  | nil => simp at h
  | cons c rest ih =>
    by_cases hp : p c
    · have hrest : rest.dropWhile p ≠ [] := by simpa [List.dropWhile, hp] using h
      have hr : rest ≠ [] := by
        intro he
        exact hrest (by simp [he])
      rw [show List.dropWhile p (c :: rest) = List.dropWhile p rest by
        simp [List.dropWhile_cons, hp]]
      rw [ih hrest]
      obtain ⟨r, rs, hre⟩ := List.exists_cons_of_ne_nil hr
      subst hre
      rw [List.getLast?_cons_cons]
    · simp [List.dropWhile, hp]

theorem getLast?_stripL (cs : List Char) (h : stripL cs ≠ []) :
    (stripL cs).getLast? = cs.getLast? :=
  getLast?_dropWhile Char.isWhitespace cs h

/-- Left-trimming after right-trimming a left-trimmed list is a no-op. -/
theorem stripL_stripR_stripL (cs : List Char) :
    stripL (stripR (stripL cs)) = stripR (stripL cs) := by
  apply stripL_of_head_not_ws
  intro c hc
  unfold stripR at hc
  rw [List.head?_reverse] at hc
  by_cases hne : stripL (stripL cs).reverse = []
  · simp [hne] at hc
  · rw [getLast?_stripL _ hne, List.getLast?_reverse] at hc
    exact stripL_head_not_ws cs c hc

theorem stripChars_idem (cs : List Char) : stripChars (stripChars cs) = stripChars cs := by
  rw [stripChars_eq, stripChars_eq, stripL_stripR_stripL, stripR_idem]

theorem pyStrip_idem (s : String) : pyStrip (pyStrip s) = pyStrip s := by
  unfold pyStrip
  rw [show (String.mk (stripChars s.toList)).toList = stripChars s.toList from rfl,
    stripChars_idem]


/-! ### Idempotence of the Value Normalizer -/

/-- Normalizing a string never yields an output the normalizer would change
again: the sentinel and trimmed non-alias strings are fixed points. -/
theorem normalize_jstr_idem (s : String) :
    normalize_missing_markers (normalize_missing_markers (.jstr s)) =
      normalize_missing_markers (.jstr s) := by
  simp only [normalize_missing_markers]
  by_cases h : MISSING_ALIASES.contains (pyLower (pyStrip s))
  · simp only [h, if_pos]
    decide
  · simp only [h, if_neg, Bool.false_eq_true, not_false_eq_true, ite_false]
    simp only [normalize_missing_markers, pyStrip_idem, h, Bool.false_eq_true, ite_false]

mutual

theorem normalize_idem : ∀ t : JValue,
    normalize_missing_markers (normalize_missing_markers t) = normalize_missing_markers t
  | .jnull => by decide
  | .jbool b => rfl
  | .jnum n => rfl
  | .jstr s => normalize_jstr_idem s
  | .jarr l => by
    simp only [normalize_missing_markers]
    rw [normalizeArr_idem l]
  | .jobj l => by
    simp only [normalize_missing_markers]
    rw [normalizeObj_idem l]

theorem normalizeArr_idem : ∀ l : List JValue, normalizeArr (normalizeArr l) = normalizeArr l
  | [] => rfl
  | v :: rest => by
    simp only [normalizeArr]
    rw [normalize_idem v, normalizeArr_idem rest]

theorem normalizeObj_idem : ∀ l : List (String × JValue),
    normalizeObj (normalizeObj l) = normalizeObj l
  | [] => rfl
  | (k, v) :: rest => by
    simp only [normalizeObj]
    rw [normalize_idem v, normalizeObj_idem rest]

end

/-- `normalizeObj` rewrites values pointwise and keeps keys in place. -/
theorem normalizeObj_eq_map (l : List (String × JValue)) :
    normalizeObj l = l.map (fun p => (p.1, normalize_missing_markers p.2)) := by
  induction l with
  | nil => rfl
  | cons hd tl ih =>
    obtain ⟨k, v⟩ := hd
    simp [normalizeObj, ih]

theorem normalizeArr_eq_map (l : List JValue) :
    normalizeArr l = l.map normalize_missing_markers := by
  induction l with
  | nil => rfl
  | cons v tl ih => simp [normalizeArr, ih]

theorem pyLookup_normalizeObj (k : String) (l : List (String × JValue)) :
    pyLookup k (normalizeObj l) = (pyLookup k l).map normalize_missing_markers := by
  induction l with
  | nil => rfl
  | cons hd tl ih =>
    obtain ⟨k', v⟩ := hd
    by_cases h : k' = k <;> simp [normalizeObj, pyLookup, h, ih]


theorem jwfObjKeys_iff_nodup (ks : List String) : jwfObjKeys ks = true ↔ ks.Nodup := by
  induction ks with
  | nil => simp [jwfObjKeys]
  | cons k rest ih =>
    simp [jwfObjKeys, ih, List.contains_eq_any_beq]


/-! ### Coercer stage lemmas -/

theorem pyLookup_append_absent {d : PyDict} {k : String}
    (h : pyLookup k d = none) (e : PyDict) :
    pyLookup k (d ++ e) = pyLookup k e := by
  induction d with
  | nil => rfl
  | cons hd tl ih =>
    obtain ⟨k0, v0⟩ := hd
    by_cases h0 : k0 = k
    · subst h0
      simp [pyLookup] at h
    · simp only [pyLookup, h0, if_false, List.cons_append] at h ⊢
      exact ih h

theorem pyLookup_append_present {d : PyDict} {k : String} {w : JValue}
    (h : pyLookup k d = some w) (e : PyDict) :
    pyLookup k (d ++ e) = some w := by
  induction d with
  | nil => simp [pyLookup] at h
  | cons hd tl ih =>
    obtain ⟨k0, v0⟩ := hd
    by_cases h0 : k0 = k
    · subst h0
      simp [pyLookup] at h ⊢
      exact h
    · simp only [pyLookup, h0, if_false, List.cons_append] at h ⊢
      exact ih h

theorem pyLookup_pySetdefault_ne {k' k : String} (h : k' ≠ k) (v : JValue) (d : PyDict) :
    pyLookup k (pySetdefault k' v d) = pyLookup k d := by
  unfold pySetdefault
  cases hd : pyLookup k' d with
  | some w => rfl
  | none =>
    cases hkd : pyLookup k d with
    | some w => exact pyLookup_append_present hkd _
    | none =>
      rw [pyLookup_append_absent hkd]
      simp [pyLookup, h]

theorem pyLookup_pySetdefault_self (k : String) (v : JValue) (d : PyDict) :
    pyLookup k (pySetdefault k v d) =
      match pyLookup k d with
      | some w => some w
      | none => some v := by
  unfold pySetdefault
  cases hd : pyLookup k d with
  | some w => simp [hd]
  | none =>
    rw [pyLookup_append_absent hd]
    simp [pyLookup]

theorem pyLookup_setdefaultMany_ne {defaults : List (String × JValue)} {k : String}
    (h : ∀ p ∈ defaults, p.1 ≠ k) (d : PyDict) :
    pyLookup k (setdefaultMany defaults d) = pyLookup k d := by
  induction defaults generalizing d with
  | nil => rfl
  | cons p rest ih =>
    obtain ⟨k0, v0⟩ := p
    rw [show setdefaultMany ((k0, v0) :: rest) d =
      setdefaultMany rest (pySetdefault k0 v0 d) from rfl]
    rw [ih (fun q hq => h q (List.mem_cons_of_mem _ hq))]
    exact pyLookup_pySetdefault_ne (h (k0, v0) (List.mem_cons_self _ _)) v0 d

theorem pyLookup_setdefaultMany_present {defaults : List (String × JValue)} {k : String}
    {w : JValue} {d : PyDict} (hp : pyLookup k d = some w) :
    pyLookup k (setdefaultMany defaults d) = some w := by
  induction defaults generalizing d with
  | nil => exact hp
  | cons p rest ih =>
    obtain ⟨k0, v0⟩ := p
    rw [show setdefaultMany ((k0, v0) :: rest) d =
      setdefaultMany rest (pySetdefault k0 v0 d) from rfl]
    apply ih
    by_cases h0 : k0 = k
    · subst h0
      rw [pyLookup_pySetdefault_self]
      simp [hp]
    · rw [pyLookup_pySetdefault_ne h0]
      exact hp

theorem pyLookup_setdefaultMany_absent {defaults : List (String × JValue)} {k : String}
    {v : JValue} (hmem : (k, v) ∈ defaults) (hnd : (defaults.map Prod.fst).Nodup)
    {d : PyDict} (habs : pyLookup k d = none) :
    pyLookup k (setdefaultMany defaults d) = some v := by
  induction defaults generalizing d with
  | nil => simp at hmem
  | cons p rest ih =>
    obtain ⟨k0, v0⟩ := p
    simp only [List.map_cons, List.nodup_cons] at hnd
    rw [show setdefaultMany ((k0, v0) :: rest) d =
      setdefaultMany rest (pySetdefault k0 v0 d) from rfl]
    rcases List.mem_cons.mp hmem with heq | htl
    · obtain ⟨hk, hv⟩ := Prod.mk.injEq .. ▸ heq
      cases heq
      apply pyLookup_setdefaultMany_present
      rw [pyLookup_pySetdefault_self, habs]
    · have hk0 : k0 ≠ k := by
        intro he
        subst he
        exact hnd.1 (List.mem_map_of_mem Prod.fst htl)
      apply ih htl hnd.2
      rw [pyLookup_pySetdefault_ne hk0]
      exact habs

theorem pyLookup_setdefaultMany_isSome {defaults : List (String × JValue)} {k : String}
    (hmem : k ∈ defaults.map Prod.fst) (hnd : (defaults.map Prod.fst).Nodup)
    (d : PyDict) : (pyLookup k (setdefaultMany defaults d)).isSome = true := by
  cases habs : pyLookup k d with
  | some w => rw [pyLookup_setdefaultMany_present habs]; rfl
  | none =>
    obtain ⟨⟨k1, v⟩, hpm, hke⟩ := List.mem_map.mp hmem
    have hpm2 : (k, v) ∈ defaults := by
      have hk1 : k1 = k := hke
      subst hk1
      exact hpm
    rw [pyLookup_setdefaultMany_absent hpm2 hnd habs]
    rfl

theorem pyLookup_pyPop_of_nodup {k' k : String} {d : PyDict}
    (hnd : (d.map Prod.fst).Nodup) :
    pyLookup k (pyPop k' d) = if k = k' then none else pyLookup k d := by
  induction d with
  | nil => by_cases h : k = k' <;> simp [pyPop, pyLookup, h]
  | cons hd tl ih =>
    obtain ⟨k0, v0⟩ := hd
    simp only [List.map_cons, List.nodup_cons] at hnd
    by_cases h0 : k0 = k'
    · subst h0
      rw [show pyPop k0 ((k0, v0) :: tl) = tl from by simp [pyPop]]
      by_cases hk : k = k0
      · subst hk
        rw [if_pos rfl]
        cases hl : pyLookup k tl with
        | none => rfl
        | some w =>
          exact absurd (List.mem_map_of_mem Prod.fst (pyLookup_mem hl)) hnd.1
      · rw [if_neg hk]
        have hk0 : ¬ k0 = k := fun he => hk he.symm
        rw [show pyLookup k ((k0, v0) :: tl) = pyLookup k tl from by
          simp [pyLookup, hk0]]
    · rw [show pyPop k' ((k0, v0) :: tl) = (k0, v0) :: pyPop k' tl from by
        simp [pyPop, h0]]
      by_cases hk : k0 = k
      · subst hk
        have hkk : ¬ k0 = k' := h0
        simp [pyLookup, hkk]
      · rw [show pyLookup k ((k0, v0) :: pyPop k' tl) = pyLookup k (pyPop k' tl) from by
          simp [pyLookup, hk]]
        rw [ih hnd.2]
        by_cases hkk : k = k'
        · simp [hkk]
        · simp [hkk, pyLookup, hk]

theorem pyLookup_copyStep_ne {n acc : PyDict} {key k : String} (h : key ≠ k) :
    pyLookup k (copyStep n acc key) = pyLookup k acc := by
  unfold copyStep
  cases pyLookup key n with
  | none => rfl
  | some v => exact pyLookup_pyUpdate_ne k key h v acc

theorem pyLookup_foldl_copyStep_notin (n : PyDict) (ks : List String) (acc : PyDict)
    (k : String) (h : k ∉ ks) :
    pyLookup k (ks.foldl (copyStep n) acc) = pyLookup k acc := by
  induction ks generalizing acc with
  | nil => rfl
  | cons a rest ih =>
    rw [List.foldl_cons]
    rw [ih _ (fun hm => h (List.mem_cons_of_mem a hm))]
    exact pyLookup_copyStep_ne (fun he => h (he ▸ List.mem_cons_self a rest))

theorem pyLookup_foldl_copyStep_mem (n : PyDict) (ks : List String) (acc : PyDict)
    (k : String) (hmem : k ∈ ks) (hnd : ks.Nodup) :
    pyLookup k (ks.foldl (copyStep n) acc) =
      match pyLookup k n with
      | some v => some v
      | none => pyLookup k acc := by
  induction ks generalizing acc with
  | nil => simp at hmem
  | cons a rest ih =>
    rw [List.foldl_cons]
    simp only [List.nodup_cons] at hnd
    rcases List.mem_cons.mp hmem with heq | htl
    · subst heq
      rw [pyLookup_foldl_copyStep_notin n rest _ k hnd.1]
      unfold copyStep
      cases hkn : pyLookup k n with
      | none => rfl
      | some v => exact pyLookup_pyUpdate_self k v acc
    · rw [ih _ htl hnd.2]
      have hak : a ≠ k := by
        intro he
        subst he
        exact hnd.1 htl
      cases hkn : pyLookup k n with
      | none => exact pyLookup_copyStep_ne hak
      | some v => rfl

theorem pyLookup_copyExpectedKeys (n : PyDict) (k : String)
    (hk : k ∈ EXPECTED_TOP_LEVEL_KEYS) :
    pyLookup k (copyExpectedKeys n) =
      match pyLookup k n with
      | some v => some v
      | none => pyLookup k build_default_structure :=
  pyLookup_foldl_copyStep_mem n _ _ k hk (by decide)

theorem pyLookup_fixAreaType_ne {c : PyDict} {k : String}
    (h : k ≠ "Area_Wise_Observations") :
    pyLookup k (fixAreaType c) = pyLookup k c := by
  unfold fixAreaType
  cases hv : pyLookup "Area_Wise_Observations" c with
  | none => exact pyLookup_pyUpdate_ne _ _ (Ne.symm h) _ c
  | some v => cases v <;>
    first
      | rfl
      | exact pyLookup_pyUpdate_ne _ _ (Ne.symm h) _ c

theorem pyLookup_fixAreaType_self (c : PyDict) :
    pyLookup "Area_Wise_Observations" (fixAreaType c) =
      match pyLookup "Area_Wise_Observations" c with
      | some (.jobj l) => some (.jobj l)
      | _ => some (.jobj []) := by
  unfold fixAreaType
  cases hv : pyLookup "Area_Wise_Observations" c with
  | none => simp [pyLookup_pyUpdate_self]
  | some v => cases v <;> simp [hv, pyLookup_pyUpdate_self]

theorem pyLookup_fixSeverity_ne {c : PyDict} {k : String}
    (h : k ≠ "Severity_Assessment") :
    pyLookup k (fixSeverity c) = pyLookup k c := by
  unfold fixSeverity
  cases hv : pyLookup "Severity_Assessment" c with
  | none => exact pyLookup_pyUpdate_ne _ _ (Ne.symm h) _ c
  | some v => cases v <;> exact pyLookup_pyUpdate_ne _ _ (Ne.symm h) _ c

theorem pyLookup_fixSeverity_self (c : PyDict) :
    pyLookup "Severity_Assessment" (fixSeverity c) =
      match pyLookup "Severity_Assessment" c with
      | some (.jobj sv) => some (.jobj (normalizeObj (setdefaultMany defaultSeverity sv)))
      | _ => some (.jobj defaultSeverity) := by
  unfold fixSeverity
  cases hv : pyLookup "Severity_Assessment" c with
  | none => simp [pyLookup_pyUpdate_self]
  | some v => cases v <;> simp [hv, pyLookup_pyUpdate_self]

theorem pyLookup_fixMissing_ne {c : PyDict} {k : String}
    (h : k ≠ "Missing_or_Unclear_Information") :
    pyLookup k (fixMissing c) = pyLookup k c := by
  unfold fixMissing
  cases hv : pyLookup "Missing_or_Unclear_Information" c with
  | none => exact pyLookup_pyUpdate_ne _ _ (Ne.symm h) _ c
  | some v =>
    cases v with
    | jarr l =>
      by_cases hl : l.isEmpty <;>
        simp [hl, pyLookup_pyUpdate_ne _ _ (Ne.symm h)]
    | jnull => exact pyLookup_pyUpdate_ne _ _ (Ne.symm h) _ c
    | jbool b => exact pyLookup_pyUpdate_ne _ _ (Ne.symm h) _ c
    | jnum n => exact pyLookup_pyUpdate_ne _ _ (Ne.symm h) _ c
    | jstr s => exact pyLookup_pyUpdate_ne _ _ (Ne.symm h) _ c
    | jobj m => exact pyLookup_pyUpdate_ne _ _ (Ne.symm h) _ c

theorem pyLookup_fixMissing_self (c : PyDict) :
    pyLookup "Missing_or_Unclear_Information" (fixMissing c) =
      match pyLookup "Missing_or_Unclear_Information" c with
      | some (.jarr l) =>
        if l.isEmpty then some (.jarr [.jstr "Not Available"]) else some (.jarr l)
      | _ => some (.jarr [.jstr "Not Available"]) := by
  unfold fixMissing
  cases hv : pyLookup "Missing_or_Unclear_Information" c with
  | none => simp [pyLookup_pyUpdate_self]
  | some v =>
    cases v with
    | jarr l => by_cases hl : l.isEmpty <;> simp [hl, hv, pyLookup_pyUpdate_self]
    | jnull => simp [hv, pyLookup_pyUpdate_self]
    | jbool b => simp [hv, pyLookup_pyUpdate_self]
    | jnum n => simp [hv, pyLookup_pyUpdate_self]
    | jstr s => simp [hv, pyLookup_pyUpdate_self]
    | jobj m => simp [hv, pyLookup_pyUpdate_self]

theorem pyLookup_processAreas_ne {c : PyDict} {k : String}
    (h : k ≠ "Area_Wise_Observations") :
    pyLookup k (processAreas c) = pyLookup k c := by
  unfold processAreas
  cases hv : pyLookup "Area_Wise_Observations" c with
  | none => rfl
  | some v => cases v <;>
    first
      | rfl
      | exact pyLookup_pyUpdate_ne _ _ (Ne.symm h) _ c

theorem pyLookup_processAreas_self {c : PyDict} {entries : PyDict}
    (hv : pyLookup "Area_Wise_Observations" c = some (.jobj entries)) :
    pyLookup "Area_Wise_Observations" (processAreas c) =
      some (.jobj (processAreaList entries)) := by
  unfold processAreas
  rw [hv]
  exact pyLookup_pyUpdate_self _ _ c

theorem pyLookup_dropPlaceholderGeneral_ne {c : PyDict} {k : String}
    (h : k ≠ "Area_Wise_Observations") :
    pyLookup k (dropPlaceholderGeneral c) = pyLookup k c := by
  unfold dropPlaceholderGeneral
  cases hv : pyLookup "Area_Wise_Observations" c with
  | none => rfl
  | some v =>
    cases v with
    | jobj entries => exact pyLookup_pyUpdate_ne _ _ (Ne.symm h) _ c
    | jnull => rfl
    | jbool b => rfl
    | jnum n => rfl
    | jstr s => rfl
    | jarr l => rfl

theorem pyLookup_dropPlaceholderGeneral_self {c : PyDict} {entries : PyDict}
    (hv : pyLookup "Area_Wise_Observations" c = some (.jobj entries)) :
    pyLookup "Area_Wise_Observations" (dropPlaceholderGeneral c) =
      some (.jobj (dropGeneralFromEntries entries)) := by
  unfold dropPlaceholderGeneral
  rw [hv]
  exact pyLookup_pyUpdate_self _ _ c

/-! ## Claim C2 -/

/-- C2: if a transport call fails with `QuotaExceeded` or `AuthFailure`, the
error propagates immediately to the caller unmodified, no retry is attempted,
and exactly one transport call has occurred when this happens on the first
attempt. -/
theorem generate_ddr_quota_auth_propagate
    (world : String → RequestOutcome) (template inspection thermal : String) :
    (∀ m, call_openrouter (world (basePromptOf template inspection thermal)) =
        .error (.quota m) →
      generate_ddr world template inspection thermal =
        (.error (.quota m), [basePromptOf template inspection thermal])) ∧
    (∀ m, call_openrouter (world (basePromptOf template inspection thermal)) =
        .error (.auth m) →
      generate_ddr world template inspection thermal =
        (.error (.auth m), [basePromptOf template inspection thermal])) := by
  constructor <;> intro m h <;> simp [generate_ddr, h]

theorem generate_ddr_quota_auth_propagate_witness :
    generate_ddr (fun _ => .resp 429 "limit hit") "T:{inspection_text}:{thermal_text}" "i" "t" =
      (.error (.quota "OpenRouter quota/rate limit exceeded (HTTP 429): limit hit"),
        ["T:i:t"]) :=
  (generate_ddr_quota_auth_propagate (fun _ => .resp 429 "limit hit")
    "T:{inspection_text}:{thermal_text}" "i" "t").1
    "OpenRouter quota/rate limit exceeded (HTTP 429): limit hit" (by decide)

/-! ## Claim C10 -/

/-- C10: a generic transport failure (network exception, timeout, non-quota
non-auth HTTP error, non-JSON body, or missing/empty assistant content) on
the first attempt is recoverable: the orchestrator consumes the single retry
and re-invokes the transport once with the corrective suffix, exactly like a
pipeline failure; and if the retry also fails generically, the terminal
wrapped error carries that transport cause. -/
theorem generate_ddr_generic_transport_retries
    (world : String → RequestOutcome) (template inspection thermal : String) :
    ∀ m, call_openrouter (world (basePromptOf template inspection thermal)) =
        .error (.generation m) →
      (generate_ddr world template inspection thermal).2 =
        [basePromptOf template inspection thermal,
         basePromptOf template inspection thermal ++ RETRY_SUFFIX] ∧
      (∀ m2, call_openrouter
          (world (basePromptOf template inspection thermal ++ RETRY_SUFFIX)) =
          .error (.generation m2) →
        (generate_ddr world template inspection thermal).1 =
          .error (.failed (.transport m2))) := by
  intro m h
  constructor
  · simp only [generate_ddr, h, generate_ddr_second]
    repeat' split
    all_goals simp
  · intro m2 h2
    simp [generate_ddr, h, generate_ddr_second, h2]

theorem generate_ddr_generic_transport_retries_witness :
    (generate_ddr (fun _ => .exn "timeout") "T:{inspection_text}:{thermal_text}" "i" "t").2 =
      ["T:i:t", "T:i:t" ++ RETRY_SUFFIX] ∧
    (generate_ddr (fun _ => .exn "timeout") "T:{inspection_text}:{thermal_text}" "i" "t").1 =
      .error (.failed (.transport "OpenRouter request failed: timeout")) := by
  have h := generate_ddr_generic_transport_retries (fun _ => .exn "timeout")
    "T:{inspection_text}:{thermal_text}" "i" "t" "OpenRouter request failed: timeout" (by decide)
  exact ⟨h.1, h.2 "OpenRouter request failed: timeout" (by decide)⟩

/-! ## Claim C1 -/

/-- C1: if the first attempt fails with a recoverable pipeline failure
(extraction, JSON-syntax parse, or validation failure), the orchestrator
re-invokes the transport exactly once more with the original prompt plus the
fixed corrective suffix; if the second attempt also fails with a pipeline
failure, a single terminal error wrapping the last underlying cause is
surfaced; and no execution makes more than two transport calls. -/
theorem generate_ddr_retry_protocol
    (world : String → RequestOutcome) (template inspection thermal : String) :
    (generate_ddr world template inspection thermal).2.length ≤ 2 ∧
    (∀ s e, call_openrouter (world (basePromptOf template inspection thermal)) = .ok s →
      parse_and_validate s = .error e →
      e.isPipelineFailure = true →
      (generate_ddr world template inspection thermal).2 =
        [basePromptOf template inspection thermal,
         basePromptOf template inspection thermal ++ RETRY_SUFFIX] ∧
      (∀ s2 e2, call_openrouter
          (world (basePromptOf template inspection thermal ++ RETRY_SUFFIX)) = .ok s2 →
        parse_and_validate s2 = .error e2 →
        e2.isPipelineFailure = true →
        generate_ddr world template inspection thermal =
          (.error (.failed e2),
           [basePromptOf template inspection thermal,
            basePromptOf template inspection thermal ++ RETRY_SUFFIX]))) := by
  refine ⟨?_, ?_⟩
  · simp only [generate_ddr, generate_ddr_second]
    repeat' split
    all_goals simp
  · intro s e hs hp _hpipe
    constructor
    · simp only [generate_ddr, hs, hp, generate_ddr_second]
      repeat' split
      all_goals simp
    · intro s2 e2 hs2 hp2 _hpipe2
      simp [generate_ddr, hs, hp, generate_ddr_second, hs2, hp2]

theorem generate_ddr_retry_protocol_witness :
    generate_ddr
        (fun _ => .resp 200
          "\x7b\"choices\":[\x7b\"message\":\x7b\"content\":\"no braces\"\x7d\x7d]\x7d")
        "T:{inspection_text}:{thermal_text}" "i" "t" =
      (.error (.failed (.extraction "No JSON object found in model response.")),
        ["T:i:t", "T:i:t" ++ RETRY_SUFFIX]) := by
  have h := (generate_ddr_retry_protocol
    (fun _ => .resp 200
      "\x7b\"choices\":[\x7b\"message\":\x7b\"content\":\"no braces\"\x7d\x7d]\x7d")
    "T:{inspection_text}:{thermal_text}" "i" "t").2
    "no braces" (.extraction "No JSON object found in model response.")
    (by decide) (by decide) (by decide)
  exact h.2 "no braces" (.extraction "No JSON object found in model response.")
    (by decide) (by decide) (by decide)

/-! ## Claim C7 -/

/-- C7: strict validation rejects any `dampness_type` containing a
comma-separated component outside the closed vocabulary (case-insensitive,
optional " (Probable)" suffix, or the sentinel); in particular a document
with `dampness_type = "Mold"` is rejected and one with
`"Rising Damp, Penetrating Damp (Probable)"` is accepted. -/
theorem dampness_type_vocabulary_enforced :
    (∀ value p, p ∈ dampnessParts value → allowedDampness.contains p = false →
      exceptOk (validate_dampness_type value) = false) ∧
    exceptOk (DDRReport.model_validate (coerce_to_schema_shape
      [("Area_Wise_Observations", .jobj [("Hall", .jobj
        [("inspection_observation", .jstr "damp patch"),
         ("dampness_type", .jstr "Mold")])])])) = false ∧
    exceptOk (DDRReport.model_validate (coerce_to_schema_shape
      [("Area_Wise_Observations", .jobj [("Hall", .jobj
        [("inspection_observation", .jstr "damp patch"),
         ("dampness_type", .jstr "Rising Damp, Penetrating Damp (Probable)")])])])) =
      true := by
  refine ⟨?_, by decide, by decide⟩
  intro value p hmem hbad
  have hne : (dampnessParts value).isEmpty = false := by
    cases h : dampnessParts value with
    | nil => rw [h] at hmem; simp at hmem
    | cons a l => simp
  have hall : ((dampnessParts value).all fun q => allowedDampness.contains q) = false := by
    cases h : (dampnessParts value).all fun q => allowedDampness.contains q with
    | false => rfl
    | true =>
      have := List.all_eq_true.mp h p hmem
      rw [hbad] at this
      exact absurd this (by simp)
  simp only [validate_dampness_type, hne, hall, Bool.false_eq_true, if_false, exceptOk]

theorem dampness_type_vocabulary_enforced_witness :
    exceptOk (validate_dampness_type "Mold") = false :=
  dampness_type_vocabulary_enforced.1 "Mold" "mold" (by decide) (by decide)

/-! ## Claim C8: extraction lemmas -/

theorem listStartsWith_single (c : Char) (cs : List Char) :
    listStartsWith [c] cs = true ↔ cs.head? = some c := by
  cases cs with
  | nil => simp [listStartsWith]
  | cons a l => simp [listStartsWith, eq_comm]

theorem listEndsWith_single (c : Char) (cs : List Char) :
    listEndsWith [c] cs = true ↔ cs.getLast? = some c := by
  unfold listEndsWith
  rw [show ([c] : List Char).reverse = [c] from rfl, listStartsWith_single,
    List.head?_reverse]

theorem firstIdxOf_eq_findIdx (c : Char) (cs : List Char) :
    firstIdxOf c cs = cs.findIdx? (fun a => a = c) := by
  induction cs with
  | nil => rfl
  | cons a l ih =>
    simp only [firstIdxOf, List.findIdx?_cons, ih]
    by_cases h : a = c
    · simp [h]
    · simp [h, List.findIdx?_succ]

theorem firstIdxOf_eq_some_iff {c : Char} {cs : List Char} {i : Nat} :
    firstIdxOf c cs = some i ↔
      cs[i]? = some c ∧ ∀ k, k < i → cs[k]? ≠ some c := by
  rw [firstIdxOf_eq_findIdx, List.findIdx?_eq_some_iff_getElem]
  constructor
  · rintro ⟨h, hp, hmin⟩
    refine ⟨List.getElem?_eq_some_iff.mpr ⟨h, by simpa using hp⟩, ?_⟩
    intro k hk hsome
    obtain ⟨hk2, he⟩ := List.getElem?_eq_some_iff.mp hsome
    exact (hmin k hk) (by simpa using he)
  · rintro ⟨h1, h2⟩
    obtain ⟨hlt, he⟩ := List.getElem?_eq_some_iff.mp h1
    refine ⟨hlt, by simpa using he, ?_⟩
    intro j hj hp
    exact h2 j hj (List.getElem?_eq_some_iff.mpr ⟨Nat.lt_trans hj hlt, by simpa using hp⟩)

theorem firstIdxOf_eq_none_iff {c : Char} {cs : List Char} :
    firstIdxOf c cs = none ↔ ∀ k : Nat, cs[k]? ≠ some c := by
  rw [firstIdxOf_eq_findIdx, List.findIdx?_eq_none_iff]
  constructor
  · intro h k hk
    have hmem : c ∈ cs := List.mem_iff_getElem?.mpr ⟨k, hk⟩
    have := h c hmem
    simp at this
  · intro h x hx
    by_cases hxc : x = c
    · subst hxc
      obtain ⟨n, hn⟩ := List.mem_iff_getElem?.mp hx
      exact absurd hn (h n)
    · simpa using hxc

theorem lastIdxOf_eq_some_iff {c : Char} {cs : List Char} {j : Nat} :
    lastIdxOf c cs = some j ↔
      cs[j]? = some c ∧ ∀ k, j < k → cs[k]? ≠ some c := by
  unfold lastIdxOf
  constructor
  · intro h
    obtain ⟨i, hi, hij⟩ : ∃ i, firstIdxOf c cs.reverse = some i ∧
        cs.length - 1 - i = j := by
      cases hf : firstIdxOf c cs.reverse with
      | none => rw [hf] at h; simp at h
      | some i =>
        rw [hf] at h
        simp only [Option.map_some'] at h
        exact ⟨i, rfl, Option.some.inj h⟩
    obtain ⟨h1, h2⟩ := firstIdxOf_eq_some_iff.mp hi
    have hilen : i < cs.length := by
      have := (List.getElem?_eq_some_iff.mp h1).1
      simpa using this
    have hrel : i + j + 1 = cs.length := by omega
    refine ⟨by rw [← List.getElem?_reverse' i j hrel]; exact h1, ?_⟩
    intro k hk hks
    have hklen : k < cs.length := by
      have := (List.getElem?_eq_some_iff.mp hks).1
      exact this
    have hrel2 : (cs.length - 1 - k) + k + 1 = cs.length := by omega
    have hrev : cs.reverse[cs.length - 1 - k]? = some c := by
      rw [List.getElem?_reverse' _ k hrel2]
      exact hks
    exact h2 (cs.length - 1 - k) (by omega) hrev
  · rintro ⟨h1, h2⟩
    have hjlen : j < cs.length := by
      have := (List.getElem?_eq_some_iff.mp h1).1
      exact this
    have hfirst : firstIdxOf c cs.reverse = some (cs.length - 1 - j) := by
      rw [firstIdxOf_eq_some_iff]
      have hrel : (cs.length - 1 - j) + j + 1 = cs.length := by omega
      refine ⟨by rw [List.getElem?_reverse' _ j hrel]; exact h1, ?_⟩
      intro k hk hks
      have hklen : k < cs.length := by omega
      have hrel2 : k + (cs.length - 1 - k) + 1 = cs.length := by omega
      rw [List.getElem?_reverse' k _ hrel2] at hks
      exact h2 (cs.length - 1 - k) (by omega) hks
    rw [hfirst]
    simp only [Option.map_some', Option.some.injEq]
    omega

theorem regexSearchBraceSpan_eq_some_span {cs span : List Char}
    (h : regexSearchBraceSpan cs = some span) :
    ∃ i j : Nat, i < j ∧ cs[i]? = some braceO ∧ cs[j]? = some braceC := by
  cases hf : firstIdxOf braceO cs with
  | none =>
    simp only [regexSearchBraceSpan, hf] at h
    exact Option.noConfusion h
  | some i =>
    cases hl : lastIdxOf braceC cs with
    | none =>
      simp only [regexSearchBraceSpan, hf, hl] at h
      exact Option.noConfusion h
    | some j =>
      by_cases hij : i < j
      · exact ⟨i, j, hij, (firstIdxOf_eq_some_iff.mp hf).1,
          (lastIdxOf_eq_some_iff.mp hl).1⟩
      · simp only [regexSearchBraceSpan, hf, hl, if_neg hij] at h
        exact Option.noConfusion h

theorem regexSearchBraceSpan_eq_none_iff (cs : List Char) :
    regexSearchBraceSpan cs = none ↔
      ¬∃ i j : Nat, i < j ∧ cs[i]? = some braceO ∧ cs[j]? = some braceC := by
  cases hf : firstIdxOf braceO cs with
  | none =>
    refine iff_of_true (by simp only [regexSearchBraceSpan, hf]) ?_
    rintro ⟨i, j, _, hio, _⟩
    exact firstIdxOf_eq_none_iff.mp hf i hio
  | some i =>
    cases hl : lastIdxOf braceC cs with
    | none =>
      refine iff_of_true (by simp only [regexSearchBraceSpan, hf, hl]) ?_
      rintro ⟨a, b, _, _, hbc⟩
      have hblen : b < cs.length := by
        have := (List.getElem?_eq_some_iff.mp hbc).1
        exact this
      have hrel : (cs.length - 1 - b) + b + 1 = cs.length := by omega
      have hrev : cs.reverse[cs.length - 1 - b]? = some braceC := by
        rw [List.getElem?_reverse' _ b hrel]
        exact hbc
      have : firstIdxOf braceC cs.reverse = none := by
        cases hfr : firstIdxOf braceC cs.reverse with
        | none => rfl
        | some m =>
          exfalso
          have : lastIdxOf braceC cs = some (cs.length - 1 - m) := by
            unfold lastIdxOf
            rw [hfr]
            rfl
          rw [this] at hl
          exact Option.noConfusion hl
      exact firstIdxOf_eq_none_iff.mp this _ hrev
    | some j =>
      by_cases hij : i < j
      · refine iff_of_false (by simp [regexSearchBraceSpan, hf, hl, hij]) (not_not_intro ?_)
        exact ⟨i, j, hij, (firstIdxOf_eq_some_iff.mp hf).1,
          (lastIdxOf_eq_some_iff.mp hl).1⟩
      · refine iff_of_true (by simp [regexSearchBraceSpan, hf, hl, hij]) ?_
        rintro ⟨a, b, hab, hao, hbc⟩
        obtain ⟨_, hmin⟩ := firstIdxOf_eq_some_iff.mp hf
        obtain ⟨_, hmax⟩ := lastIdxOf_eq_some_iff.mp hl
        have hia : i ≤ a := by
          by_contra hcon
          exact hmin a (by omega) hao
        have hbj : b ≤ j := by
          by_contra hcon
          exact hmax b (by omega) hbc
        omega

/-- C8: payload extraction returns the whole trimmed text when it begins with
an opening brace and ends with a closing brace; otherwise it returns the
greedy brace-delimited span running from the first opening brace to the last
closing brace whenever a closing brace lies strictly after the first opening
brace; and it fails exactly when no such span exists. -/
theorem extract_json_payload_contract (raw : String) :
    ((stripChars raw.toList).head? = some braceO ∧
        (stripChars raw.toList).getLast? = some braceC →
      extract_json_payload raw = .ok (String.mk (stripChars raw.toList))) ∧
    (∀ i j : Nat,
      ¬((stripChars raw.toList).head? = some braceO ∧
        (stripChars raw.toList).getLast? = some braceC) →
      (stripChars raw.toList)[i]? = some braceO →
      (∀ k, k < i → (stripChars raw.toList)[k]? ≠ some braceO) →
      (stripChars raw.toList)[j]? = some braceC →
      (∀ k, j < k → (stripChars raw.toList)[k]? ≠ some braceC) →
      i < j →
      extract_json_payload raw =
        .ok (String.mk (((stripChars raw.toList).drop i).take (j - i + 1)))) ∧
    (exceptOk (extract_json_payload raw) = false ↔
      ¬∃ i j : Nat, i < j ∧ (stripChars raw.toList)[i]? = some braceO ∧
        (stripChars raw.toList)[j]? = some braceC) := by
  refine ⟨?_, ?_, ?_⟩
  · rintro ⟨h1, h2⟩
    have hs : listStartsWith [braceO] (stripChars raw.toList) = true :=
      (listStartsWith_single _ _).mpr h1
    have he : listEndsWith [braceC] (stripChars raw.toList) = true :=
      (listEndsWith_single _ _).mpr h2
    simp only [extract_json_payload, hs, Bool.true_and, he]
  · intro i j hnf hio himin hjc hjmax hij
    have hcond : (listStartsWith [braceO] (stripChars raw.toList) &&
        listEndsWith [braceC] (stripChars raw.toList)) = false := by
      cases hc : (listStartsWith [braceO] (stripChars raw.toList) &&
        listEndsWith [braceC] (stripChars raw.toList)) with
      | false => rfl
      | true =>
        rw [Bool.and_eq_true] at hc
        exact absurd ⟨(listStartsWith_single _ _).mp hc.1,
          (listEndsWith_single _ _).mp hc.2⟩ hnf
    have hfi : firstIdxOf braceO (stripChars raw.toList) = some i :=
      firstIdxOf_eq_some_iff.mpr ⟨hio, himin⟩
    have hlj : lastIdxOf braceC (stripChars raw.toList) = some j :=
      lastIdxOf_eq_some_iff.mpr ⟨hjc, hjmax⟩
    have hre : regexSearchBraceSpan (stripChars raw.toList) =
        some (((stripChars raw.toList).drop i).take (j - i + 1)) := by
      simp only [regexSearchBraceSpan, hfi, hlj, if_pos hij]
    simp only [extract_json_payload, hcond, hre]
  · cases hcond : (listStartsWith [braceO] (stripChars raw.toList) &&
        listEndsWith [braceC] (stripChars raw.toList)) with
    | true =>
      rw [Bool.and_eq_true] at hcond
      have h1 := (listStartsWith_single _ _).mp hcond.1
      have h2 := (listEndsWith_single _ _).mp hcond.2
      have hok : extract_json_payload raw = .ok (String.mk (stripChars raw.toList)) := by
        simp only [extract_json_payload, hcond.1, Bool.true_and, hcond.2]
      rw [hok]
      have hex : ∃ i j : Nat, i < j ∧ (stripChars raw.toList)[i]? = some braceO ∧
          (stripChars raw.toList)[j]? = some braceC := by
        have hlen : (stripChars raw.toList).length ≠ 0 := by
          intro hz
          rw [List.length_eq_zero] at hz
          rw [hz] at h1
          simp at h1
        have hlast := h2
        rw [List.getLast?_eq_getElem?] at hlast
        have h0 : (stripChars raw.toList)[0]? = some braceO := by
          rw [← List.head?_eq_getElem?]
          exact h1
        have hlen2 : (stripChars raw.toList).length ≠ 1 := by
          intro h1len
          rw [h1len] at hlast
          simp only [Nat.sub_self] at hlast
          rw [h0] at hlast
          have hbrace : braceO = braceC := Option.some.inj hlast
          exact absurd hbrace (by decide)
        exact ⟨0, (stripChars raw.toList).length - 1, by omega, h0, hlast⟩
      exact iff_of_false (by simp [exceptOk]) (not_not_intro hex)
    | false =>
      cases hr : regexSearchBraceSpan (stripChars raw.toList) with
      | some span =>
        have hok : extract_json_payload raw = .ok (String.mk span) := by
          simp only [extract_json_payload, hcond, hr]
        rw [hok]
        exact iff_of_false (by simp [exceptOk])
          (not_not_intro (regexSearchBraceSpan_eq_some_span hr))
      | none =>
        have herr : extract_json_payload raw =
            .error "No JSON object found in model response." := by
          simp only [extract_json_payload, hcond, hr]
        rw [herr]
        exact iff_of_true (by simp [exceptOk]) ((regexSearchBraceSpan_eq_none_iff _).mp hr)

theorem extract_json_payload_contract_witness :
    extract_json_payload "prefix \x7b\"a\": 1\x7d suffix" = .ok "\x7b\"a\": 1\x7d" := by
  have h := (extract_json_payload_contract "prefix \x7b\"a\": 1\x7d suffix").2.1 7 14
    (by decide) (by decide) (by decide) (by decide)
    (by
      intro k hk hc
      have hlen : k < (stripChars ("prefix \x7b\"a\": 1\x7d suffix").toList).length :=
        (List.getElem?_eq_some_iff.mp hc).1
      have h22 : (stripChars ("prefix \x7b\"a\": 1\x7d suffix").toList).length = 22 := by
        decide
      rw [h22] at hlen
      interval_cases k <;> exact absurd hc (by decide))
    (by decide)
  have hstr : String.mk (((stripChars ("prefix \x7b\"a\": 1\x7d suffix").toList).drop 7).take
      (14 - 7 + 1)) = "\x7b\"a\": 1\x7d" := by decide
  rw [hstr] at h
  exact h

/-! ## Claim C4: normalization and missing-marker occurrences -/

mutual

theorem no_missing_val : ∀ t v : JValue,
    ValOccurs v (normalize_missing_markers t) → isMissingLeaf v = false
  | .jnull, v => fun h => by
    rw [show normalize_missing_markers .jnull = .jstr "Not Available" from rfl] at h
    cases h
    decide
  | .jbool b, v => fun h => by
    rw [show normalize_missing_markers (.jbool b) = .jbool b from rfl] at h
    cases h
    rfl
  | .jnum n, v => fun h => by
    rw [show normalize_missing_markers (.jnum n) = .jnum n from rfl] at h
    cases h
    rfl
  | .jstr s, v => fun h => by
    by_cases hal : pyLower (pyStrip s) ∈ MISSING_ALIASES
    · rw [show normalize_missing_markers (.jstr s) = .jstr "Not Available" from by
        simp [normalize_missing_markers, hal]] at h
      cases h
      decide
    · rw [show normalize_missing_markers (.jstr s) = .jstr (pyStrip s) from by
        simp [normalize_missing_markers, hal]] at h
      cases h
      show isMissingLeaf (.jstr (pyStrip s)) = false
      rw [show isMissingLeaf (.jstr (pyStrip s)) =
        MISSING_ALIASES.contains (pyLower (pyStrip (pyStrip s))) from rfl]
      rw [pyStrip_idem]
      simpa using hal
  | .jarr l, v => fun h => by
    rw [show normalize_missing_markers (.jarr l) = .jarr (normalizeArr l) from rfl] at h
    cases h with
    | refl => rfl
    | inArr hmem hocc => exact no_missing_arr l _ v hmem hocc
  | .jobj l, v => fun h => by
    rw [show normalize_missing_markers (.jobj l) = .jobj (normalizeObj l) from rfl] at h
    cases h with
    | refl => rfl
    | inObj hmem hocc => exact no_missing_obj l _ _ v hmem hocc

theorem no_missing_arr : ∀ (l : List JValue) (t v : JValue),
    t ∈ normalizeArr l → ValOccurs v t → isMissingLeaf v = false
  | [], t, v => fun hmem _ => by simp [normalizeArr] at hmem
  | u :: rest, t, v => fun hmem hocc => by
    rw [show normalizeArr (u :: rest) =
      normalize_missing_markers u :: normalizeArr rest from rfl] at hmem
    rcases List.mem_cons.mp hmem with heq | htl
    · exact no_missing_val u v (heq ▸ hocc)
    · exact no_missing_arr rest t v htl hocc

theorem no_missing_obj : ∀ (l : List (String × JValue)) (k : String) (t v : JValue),
    (k, t) ∈ normalizeObj l → ValOccurs v t → isMissingLeaf v = false
  | [], k, t, v => fun hmem _ => by simp [normalizeObj] at hmem
  | (k0, u) :: rest, k, t, v => fun hmem hocc => by
    rw [show normalizeObj ((k0, u) :: rest) =
      (k0, normalize_missing_markers u) :: normalizeObj rest from rfl] at hmem
    rcases List.mem_cons.mp hmem with heq | htl
    · have ht : t = normalize_missing_markers u := congrArg Prod.snd heq
      exact no_missing_val u v (ht ▸ hocc)
    · exact no_missing_obj rest k t v htl hocc

end

mutual

theorem keysOf_normalize : ∀ t : JValue,
    keysOf (normalize_missing_markers t) = keysOf t
  | .jnull => rfl
  | .jbool b => rfl
  | .jnum n => rfl
  | .jstr s => by
    by_cases hal : pyLower (pyStrip s) ∈ MISSING_ALIASES <;>
      simp [normalize_missing_markers, hal, keysOf]
  | .jarr l => by
    rw [show normalize_missing_markers (.jarr l) = .jarr (normalizeArr l) from rfl]
    rw [show keysOf (.jarr (normalizeArr l)) = keysOfArr (normalizeArr l) from rfl]
    rw [show keysOf (.jarr l) = keysOfArr l from rfl]
    exact keysOfArr_normalize l
  | .jobj l => by
    rw [show normalize_missing_markers (.jobj l) = .jobj (normalizeObj l) from rfl]
    rw [show keysOf (.jobj (normalizeObj l)) = keysOfObj (normalizeObj l) from rfl]
    rw [show keysOf (.jobj l) = keysOfObj l from rfl]
    exact keysOfObj_normalize l

theorem keysOfArr_normalize : ∀ l : List JValue,
    keysOfArr (normalizeArr l) = keysOfArr l
  | [] => rfl
  | u :: rest => by
    rw [show normalizeArr (u :: rest) =
      normalize_missing_markers u :: normalizeArr rest from rfl]
    rw [show keysOfArr (normalize_missing_markers u :: normalizeArr rest) =
      keysOf (normalize_missing_markers u) ++ keysOfArr (normalizeArr rest) from rfl]
    rw [keysOf_normalize u, keysOfArr_normalize rest]
    rfl

theorem keysOfObj_normalize : ∀ l : List (String × JValue),
    keysOfObj (normalizeObj l) = keysOfObj l
  | [] => rfl
  | (k0, u) :: rest => by
    rw [show normalizeObj ((k0, u) :: rest) =
      (k0, normalize_missing_markers u) :: normalizeObj rest from rfl]
    rw [show keysOfObj ((k0, normalize_missing_markers u) :: normalizeObj rest) =
      k0 :: (keysOf (normalize_missing_markers u) ++ keysOfObj (normalizeObj rest)) from rfl]
    rw [keysOf_normalize u, keysOfObj_normalize rest]
    rfl

end

/-- C4 counterexample: the claim requires a missing-alias occurring as a KEY
of a mapping to be rewritten to the sentinel, but the normalizer preserves
mapping keys verbatim: the alias key "n/a" survives normalization
unchanged. -/
theorem normalize_alias_key_counterexample :
    normalize_missing_markers (.jobj [("n/a", .jnum "1")]) =
      .jobj [("n/a", .jnum "1")] ∧
    "n/a" ∈ MISSING_ALIASES := by decide

/-- C4 (amended): normalization rewrites every missing-alias occurrence at
any VALUE position of the tree (scalar leaves, sequence elements, mapping
values, at any depth, including null) to the sentinel "Not Available" — no
missing-marker leaf survives at any value position — while mapping keys are
preserved verbatim and are never rewritten. -/
theorem normalize_missing_markers_amended :
    (∀ t v : JValue, ValOccurs v (normalize_missing_markers t) →
      isMissingLeaf v = false) ∧
    (∀ t : JValue, keysOf (normalize_missing_markers t) = keysOf t) ∧
    normalize_missing_markers .jnull = .jstr "Not Available" ∧
    (∀ s, isMissingLeaf (.jstr s) = true →
      normalize_missing_markers (.jstr s) = .jstr "Not Available") := by
  refine ⟨no_missing_val, keysOf_normalize, rfl, ?_⟩
  intro s hs
  have hal : pyLower (pyStrip s) ∈ MISSING_ALIASES := by
    simpa [isMissingLeaf] using hs
  simp [normalize_missing_markers, hal]

theorem normalize_missing_markers_amended_witness :
    isMissingLeaf (.jstr "Not Available") = false ∧
    normalize_missing_markers (.jstr "n/a") = .jstr "Not Available" := by
  constructor
  · apply normalize_missing_markers_amended.1 (.jobj [("k", .jnull)])
    have h : normalize_missing_markers (.jobj [("k", .jnull)]) =
        .jobj [("k", .jstr "Not Available")] := by decide
    rw [h]
    exact ValOccurs.inObj (List.mem_singleton.mpr rfl) (ValOccurs.refl _)
  · exact normalize_missing_markers_amended.2.2.2 "n/a" (by decide)


/-! ## Claim C9: placeholder suppression -/

theorem placeholder_field_sentinel {gl : PyDict} {f : String}
    (hf : (f, JValue.jstr "Not Available") ∈ defaultAreaFields)
    (hs : becomesSentinel (pyLookup f gl)) :
    pyLookup f (normalizeObj (setdefaultMany defaultAreaFields (normalizeObj gl))) =
      some (.jstr "Not Available") := by
  rw [pyLookup_normalizeObj]
  cases hgl : pyLookup f gl with
  | none =>
    have habs : pyLookup f (normalizeObj gl) = none := by
      rw [pyLookup_normalizeObj, hgl]
      rfl
    rw [pyLookup_setdefaultMany_absent hf (by decide) habs]
    simp only [Option.map_some']
    decide
  | some v =>
    have hpres : pyLookup f (normalizeObj gl) =
        some (normalize_missing_markers v) := by
      rw [pyLookup_normalizeObj, hgl]
      rfl
    rw [pyLookup_setdefaultMany_present hpres]
    simp only [Option.map_some']
    rw [normalize_idem v, hs v hgl]

/-- C9: for every input mapping whose only `Area_Wise_Observations` entry is
the key "General" with `inspection_observation`, `thermal_observation` and
`merged_finding` all absent, missing-aliases, or the sentinel (all of which
backfill to "Not Available"), coercion produces a document whose
`Area_Wise_Observations` is the empty mapping. -/
theorem coerce_placeholder_general_suppressed
    (d : PyDict) (gl : PyDict)
    (hawo : pyLookup "Area_Wise_Observations" d = some (.jobj [("General", .jobj gl)]))
    (h1 : becomesSentinel (pyLookup "inspection_observation" gl))
    (h2 : becomesSentinel (pyLookup "thermal_observation" gl))
    (h3 : becomesSentinel (pyLookup "merged_finding" gl)) :
    pyLookup "Area_Wise_Observations" (coerce_to_schema_shape d) = some (.jobj []) := by
  unfold coerce_to_schema_shape
  have hN : pyLookup "Area_Wise_Observations" (normalizeObj d) =
      some (.jobj [("General", .jobj (normalizeObj gl))]) := by
    rw [pyLookup_normalizeObj, hawo]
    rfl
  have h1c : pyLookup "Area_Wise_Observations"
      (copyExpectedKeys (normalizeObj d)) =
      some (.jobj [("General", .jobj (normalizeObj gl))]) := by
    rw [pyLookup_copyExpectedKeys _ _ (by decide), hN]
  have h2c : pyLookup "Area_Wise_Observations"
      (fixAreaType (copyExpectedKeys (normalizeObj d))) =
      some (.jobj [("General", .jobj (normalizeObj gl))]) := by
    rw [pyLookup_fixAreaType_self, h1c]
  have h3c : pyLookup "Area_Wise_Observations"
      (fixSeverity (fixAreaType (copyExpectedKeys (normalizeObj d)))) =
      some (.jobj [("General", .jobj (normalizeObj gl))]) := by
    rw [pyLookup_fixSeverity_ne (by decide), h2c]
  have h4c : pyLookup "Area_Wise_Observations"
      (fixMissing (fixSeverity (fixAreaType (copyExpectedKeys (normalizeObj d))))) =
      some (.jobj [("General", .jobj (normalizeObj gl))]) := by
    rw [pyLookup_fixMissing_ne (by decide), h3c]
  have hplist : processAreaList [("General", .jobj (normalizeObj gl))] =
      [("General", processAreaEntry (.jobj (normalizeObj gl)))] := by
    simp [processAreaList, pyUpdate]
  have h5c : pyLookup "Area_Wise_Observations"
      (processAreas (fixMissing (fixSeverity (fixAreaType
        (copyExpectedKeys (normalizeObj d)))))) =
      some (.jobj [("General", processAreaEntry (.jobj (normalizeObj gl)))]) := by
    rw [pyLookup_processAreas_self h4c, hplist]
  rw [pyLookup_dropPlaceholderGeneral_self h5c]
  have hGm : processAreaEntry (.jobj (normalizeObj gl)) =
      .jobj (normalizeObj (setdefaultMany defaultAreaFields (normalizeObj gl))) := rfl
  have hio := placeholder_field_sentinel (f := "inspection_observation") (by decide) h1
  have hto := placeholder_field_sentinel (f := "thermal_observation") (by decide) h2
  have hmf := placeholder_field_sentinel (f := "merged_finding") (by decide) h3
  have hpl : isPlaceholderGeneral
      (normalizeObj (setdefaultMany defaultAreaFields (normalizeObj gl))) = true := by
    simp [isPlaceholderGeneral, hio, hto, hmf]
  have hdg : dropGeneralFromEntries
      [("General", processAreaEntry (.jobj (normalizeObj gl)))] = [] := by
    rw [hGm]
    have hlook : pyLookup "General"
        [("General", JValue.jobj (normalizeObj (setdefaultMany defaultAreaFields
          (normalizeObj gl))))] =
        some (JValue.jobj (normalizeObj (setdefaultMany defaultAreaFields
          (normalizeObj gl)))) := by
      simp [pyLookup]
    simp [dropGeneralFromEntries, hlook, hpl, pyPop]
  rw [hdg]

theorem coerce_placeholder_general_suppressed_witness :
    pyLookup "Area_Wise_Observations"
      (coerce_to_schema_shape
        [("Area_Wise_Observations", .jobj [("General", .jobj
          [("inspection_observation", .jstr "n/a"),
           ("thermal_observation", .jnull)])])]) = some (.jobj []) :=
  coerce_placeholder_general_suppressed
    [("Area_Wise_Observations", .jobj [("General", .jobj
      [("inspection_observation", .jstr "n/a"),
       ("thermal_observation", .jnull)])])]
    [("inspection_observation", .jstr "n/a"), ("thermal_observation", .jnull)]
    (by decide)
    (fun v hv => by cases hv; decide)
    (fun v hv => by cases hv; decide)
    (fun v hv => Option.noConfusion hv)


/-! ## Claim C5: the validator accepts an empty area mapping -/

theorem exceptBind_ok {ε α β : Type} (a : α) (f : α → Except ε β) :
    (Except.ok a >>= f) = f a := rfl

theorem exceptBind_error {ε α β : Type} (e : ε) (f : α → Except ε β) :
    ((Except.error e : Except ε α) >>= f) = Except.error e := rfl

theorem getRequiredStr_pyUpdate_ne {kw name : String} (h : kw ≠ name) (v : JValue)
    (d : PyDict) :
    getRequiredStr (pyUpdate kw v d) name = getRequiredStr d name := by
  unfold getRequiredStr
  rw [pyLookup_pyUpdate_ne name kw h v d]

/-- C5 counterexample: coercion of the placeholder-only input leaves an empty
`Area_Wise_Observations` mapping, and strict validation ACCEPTS the
resulting document; the claim, which says validation rejects it, is false on
the code. -/
theorem validate_empty_area_counterexample :
    pyLookup "Area_Wise_Observations"
      (coerce_to_schema_shape
        [("Area_Wise_Observations", .jobj [("General", .jobj [])])]) =
      some (.jobj []) ∧
    exceptOk (DDRReport.model_validate
      (coerce_to_schema_shape
        [("Area_Wise_Observations", .jobj [("General", .jobj [])])])) = true := by
  decide

/-- C5 (amended): if, after the coercer drops a placeholder "General" entry,
`Area_Wise_Observations` is the empty mapping, validation ACCEPTS the
resulting document: an empty area mapping is never a reason for rejection.
In general, replacing the `Area_Wise_Observations` of any document that
passes strict validation with the empty mapping yields a document that still
passes, with an empty validated area map. -/
theorem validate_accepts_empty_area_observations
    (d : PyDict) (r : DDRReport)
    (h : DDRReport.model_validate d = .ok r) :
    DDRReport.model_validate (pyUpdate "Area_Wise_Observations" (.jobj []) d) =
      .ok { r with Area_Wise_Observations := [] } := by
  unfold DDRReport.model_validate at h ⊢
  rw [getRequiredStr_pyUpdate_ne (by decide)]
  cases hg1 : getRequiredStr d "Property_Issue_Summary" with
  | error e => rw [hg1] at h; simp only [exceptBind_error] at h; exact Except.noConfusion h
  | ok pis0 =>
  rw [hg1] at h
  simp only [exceptBind_ok] at h ⊢
  cases hv1 : validate_non_empty pis0 "Property_Issue_Summary" with
  | error e => rw [hv1] at h; simp only [exceptBind_error] at h; exact Except.noConfusion h
  | ok pis =>
  rw [hv1] at h
  simp only [exceptBind_ok] at h ⊢
  rw [pyLookup_pyUpdate_self]
  cases hA : pyLookup "Area_Wise_Observations" d with
  | none => rw [hA] at h; simp only [exceptBind_error] at h; exact Except.noConfusion h
  | some av =>
  rw [hA] at h
  cases av with
  | jnull => simp only [exceptBind_error] at h; exact Except.noConfusion h
  | jbool b => simp only [exceptBind_error] at h; exact Except.noConfusion h
  | jnum n => simp only [exceptBind_error] at h; exact Except.noConfusion h
  | jstr s => simp only [exceptBind_error] at h; exact Except.noConfusion h
  | jarr l => simp only [exceptBind_error] at h; exact Except.noConfusion h
  | jobj al =>
  simp only [] at h
  cases hAE : validateAreaEntries al with
  | error e => rw [hAE] at h; simp only [exceptBind_error] at h; exact Except.noConfusion h
  | ok awo0 =>
  rw [hAE] at h
  simp only [exceptBind_ok] at h
  cases hAV : validate_area_observations awo0 with
  | error e => rw [hAV] at h; simp only [exceptBind_error] at h; exact Except.noConfusion h
  | ok awo =>
  rw [hAV] at h
  simp only [exceptBind_ok] at h
  simp only [show validateAreaEntries [] = Except.ok [] from rfl,
    show validate_area_observations [] =
      Except.ok ([] : List (String × AreaObservation)) from rfl,
    exceptBind_ok]
  rw [getRequiredStr_pyUpdate_ne (by decide)]
  cases hg2 : getRequiredStr d "Probable_Root_Cause" with
  | error e => rw [hg2] at h; simp only [exceptBind_error] at h; exact Except.noConfusion h
  | ok prc0 =>
  rw [hg2] at h
  simp only [exceptBind_ok] at h ⊢
  cases hv2 : validate_non_empty prc0 "Probable_Root_Cause" with
  | error e => rw [hv2] at h; simp only [exceptBind_error] at h; exact Except.noConfusion h
  | ok prc =>
  rw [hv2] at h
  simp only [exceptBind_ok] at h ⊢
  rw [pyLookup_pyUpdate_ne _ _ (by decide) _ d]
  cases hS : pyLookup "Severity_Assessment" d with
  | none => rw [hS] at h; simp only [exceptBind_error] at h; exact Except.noConfusion h
  | some sv =>
  rw [hS] at h
  simp only [] at h ⊢
  cases hSV : SeverityAssessment.model_validate sv with
  | error e => rw [hSV] at h; simp only [exceptBind_error] at h; exact Except.noConfusion h
  | ok sev =>
  rw [hSV] at h
  simp only [exceptBind_ok] at h ⊢
  rw [getRequiredStr_pyUpdate_ne (by decide)]
  cases hg3 : getRequiredStr d "Recommended_Actions" with
  | error e => rw [hg3] at h; simp only [exceptBind_error] at h; exact Except.noConfusion h
  | ok ra0 =>
  rw [hg3] at h
  simp only [exceptBind_ok] at h ⊢
  cases hv3 : validate_non_empty ra0 "Recommended_Actions" with
  | error e => rw [hv3] at h; simp only [exceptBind_error] at h; exact Except.noConfusion h
  | ok ra =>
  rw [hv3] at h
  simp only [exceptBind_ok] at h ⊢
  rw [getRequiredStr_pyUpdate_ne (by decide)]
  cases hg4 : getRequiredStr d "Risk_Implications" with
  | error e => rw [hg4] at h; simp only [exceptBind_error] at h; exact Except.noConfusion h
  | ok ri0 =>
  rw [hg4] at h
  simp only [exceptBind_ok] at h ⊢
  cases hv4 : validate_non_empty ri0 "Risk_Implications" with
  | error e => rw [hv4] at h; simp only [exceptBind_error] at h; exact Except.noConfusion h
  | ok ri =>
  rw [hv4] at h
  simp only [exceptBind_ok] at h ⊢
  rw [getRequiredStr_pyUpdate_ne (by decide)]
  cases hg5 : getRequiredStr d "Additional_Notes" with
  | error e => rw [hg5] at h; simp only [exceptBind_error] at h; exact Except.noConfusion h
  | ok an0 =>
  rw [hg5] at h
  simp only [exceptBind_ok] at h ⊢
  cases hv5 : validate_non_empty an0 "Additional_Notes" with
  | error e => rw [hv5] at h; simp only [exceptBind_error] at h; exact Except.noConfusion h
  | ok an =>
  rw [hv5] at h
  simp only [exceptBind_ok] at h ⊢
  rw [pyLookup_pyUpdate_ne _ _ (by decide) _ d]
  cases hM : pyLookup "Missing_or_Unclear_Information" d with
  | none => rw [hM] at h; simp only [exceptBind_error] at h; exact Except.noConfusion h
  | some mv =>
  rw [hM] at h
  cases mv with
  | jnull => simp only [exceptBind_error] at h; exact Except.noConfusion h
  | jbool b => simp only [exceptBind_error] at h; exact Except.noConfusion h
  | jnum n => simp only [exceptBind_error] at h; exact Except.noConfusion h
  | jstr s => simp only [exceptBind_error] at h; exact Except.noConfusion h
  | jobj l => simp only [exceptBind_error] at h; exact Except.noConfusion h
  | jarr ml =>
  simp only [] at h ⊢
  cases hml : asStrList ml with
  | error e => rw [hml] at h; simp only [exceptBind_error] at h; exact Except.noConfusion h
  | ok mi0 =>
  rw [hml] at h
  simp only [exceptBind_ok] at h ⊢
  cases hmv : validate_missing_info_list mi0 with
  | error e => rw [hmv] at h; simp only [exceptBind_error] at h; exact Except.noConfusion h
  | ok mi =>
  rw [hmv] at h
  simp only [exceptBind_ok] at h ⊢
  have hr := Except.ok.inj h
  rw [← hr]

theorem validate_accepts_empty_area_observations_witness :
    DDRReport.model_validate
      (pyUpdate "Area_Wise_Observations" (.jobj []) build_default_structure) =
      .ok { Property_Issue_Summary := "Not Available"
            Area_Wise_Observations := []
            Probable_Root_Cause := "Not Available"
            Severity_Assessment :=
              { overall_severity := "Not Available"
                reasoning := "Not Available"
                Confidence_Level := "Not Available"
                Confidence_Reasoning := "Not Available" }
            Recommended_Actions := "Not Available"
            Risk_Implications := "Not Available"
            Additional_Notes := "Not Available"
            Missing_or_Unclear_Information := ["Not Available"] } :=
  validate_accepts_empty_area_observations build_default_structure
    { Property_Issue_Summary := "Not Available"
      Area_Wise_Observations := []
      Probable_Root_Cause := "Not Available"
      Severity_Assessment :=
        { overall_severity := "Not Available"
          reasoning := "Not Available"
          Confidence_Level := "Not Available"
          Confidence_Reasoning := "Not Available" }
      Recommended_Actions := "Not Available"
      Risk_Implications := "Not Available"
      Additional_Notes := "Not Available"
      Missing_or_Unclear_Information := ["Not Available"] }
    (by decide)



/-! ## Claim C3: schema completeness of coercion -/

theorem pyLookup_mapValues (f : JValue → JValue) (k : String) (l : PyDict) :
    pyLookup k (l.map (fun p => (p.1, f p.2))) = (pyLookup k l).map f := by
  induction l with
  | nil => rfl
  | cons hd tl ih =>
    obtain ⟨k0, v0⟩ := hd
    by_cases h : k0 = k <;> simp [pyLookup, h, ih]

theorem pyLookup_eq_none_of_not_mem {k : String} {l : PyDict}
    (h : k ∉ l.map Prod.fst) : pyLookup k l = none := by
  induction l with
  | nil => rfl
  | cons hd tl ih =>
    obtain ⟨k0, v0⟩ := hd
    simp only [List.map_cons, List.mem_cons] at h
    have h1 : ¬ k0 = k := fun he => h (Or.inl he.symm)
    simp only [pyLookup, h1, if_false]
    exact ih (fun hm => h (Or.inr hm))

theorem map_fst_normalizeObj (l : PyDict) :
    (normalizeObj l).map Prod.fst = l.map Prod.fst := by
  rw [normalizeObj_eq_map]
  simp

theorem jwf_jobj_nodup {l : PyDict} (h : jwf (.jobj l) = true) :
    (l.map Prod.fst).Nodup := by
  rw [show jwf (.jobj l) = (jwfObjKeys (l.map Prod.fst) && jwfObj l) from rfl] at h
  rw [Bool.and_eq_true] at h
  exact (jwfObjKeys_iff_nodup _).mp h.1

theorem jwfObj_mem : ∀ {l : PyDict} {k : String} {v : JValue},
    jwfObj l = true → (k, v) ∈ l → jwf v = true := by
  intro l
  induction l with
  | nil => intro k v _ hm; simp at hm
  | cons hd tl ih =>
    intro k v hwf hm
    obtain ⟨k0, v0⟩ := hd
    rw [show jwfObj ((k0, v0) :: tl) = (jwf v0 && jwfObj tl) from rfl,
      Bool.and_eq_true] at hwf
    rcases List.mem_cons.mp hm with heq | htl
    · have hv : v = v0 := congrArg Prod.snd heq
      rw [hv]
      exact hwf.1
    · exact ih hwf.2 htl

theorem jwf_lookup {l : PyDict} {k : String} {v : JValue}
    (hwf : jwf (.jobj l) = true) (hlk : pyLookup k l = some v) : jwf v = true := by
  rw [show jwf (.jobj l) = (jwfObjKeys (l.map Prod.fst) && jwfObj l) from rfl,
    Bool.and_eq_true] at hwf
  exact jwfObj_mem hwf.2 (pyLookup_mem hlk)

theorem map_if_eq_self {k : String} {v : JValue} {l : PyDict}
    (h : k ∉ l.map Prod.fst) :
    l.map (fun p => if p.1 = k then (p.1, v) else p) = l := by
  induction l with
  | nil => rfl
  | cons hd tl ih =>
    obtain ⟨k0, v0⟩ := hd
    simp only [List.map_cons, List.mem_cons] at h
    have h1 : ¬ k0 = k := fun he => h (Or.inl he.symm)
    simp only [List.map_cons, h1, if_false]
    rw [ih (fun hm => h (Or.inr hm))]

theorem pyUpdate_eq_map_of_nodup {k : String} {v : JValue} {d : PyDict}
    (hnd : (d.map Prod.fst).Nodup) (hk : (pyLookup k d).isSome = true) :
    pyUpdate k v d = d.map (fun p => if p.1 = k then (p.1, v) else p) := by
  induction d with
  | nil => simp [pyLookup] at hk
  | cons hd tl ih =>
    obtain ⟨k0, v0⟩ := hd
    simp only [List.map_cons, List.nodup_cons] at hnd
    by_cases h : k0 = k
    · subst h
      simp only [pyUpdate, List.map_cons, eq_self_iff_true, if_true]
      rw [map_if_eq_self hnd.1]
    · simp only [pyUpdate, h, if_false, List.map_cons]
      have hk2 : (pyLookup k tl).isSome = true := by
        simpa [pyLookup, h] using hk
      rw [ih hnd.2 hk2]

theorem foldl_areaUpdate_eq : ∀ (xs : PyDict) (acc : PyDict),
    (xs.map Prod.fst).Nodup →
    (∀ p ∈ xs, (pyLookup p.1 acc).isSome = true) →
    (acc.map Prod.fst).Nodup →
    xs.foldl (fun a p => pyUpdate p.1 (processAreaEntry p.2) a) acc =
      acc.map (fun q =>
        match pyLookup q.1 xs with
        | some w => (q.1, processAreaEntry w)
        | none => q) := by
  intro xs
  induction xs with
  | nil =>
    intro acc _ _ _
    simp only [List.foldl_nil, pyLookup]
    exact (List.map_id' acc).symm
  | cons hd rest ih =>
    intro acc hndxs hpres hndacc
    obtain ⟨k0, w0⟩ := hd
    rw [List.foldl_cons]
    simp only [List.map_cons, List.nodup_cons] at hndxs
    have hk0acc : (pyLookup k0 acc).isSome = true :=
      hpres (k0, w0) (List.mem_cons_self _ _)
    rw [ih (pyUpdate k0 (processAreaEntry w0) acc) hndxs.2
      (by
        intro p hp
        by_cases he : p.1 = k0
        · rw [he, pyLookup_pyUpdate_self]
          rfl
        · rw [pyLookup_pyUpdate_ne _ _ (fun x => he x.symm)]
          exact hpres p (List.mem_cons_of_mem _ hp))
      (by
        rw [keys_pyUpdate _ hk0acc]
        exact hndacc)]
    rw [pyUpdate_eq_map_of_nodup hndacc hk0acc, List.map_map]
    apply List.map_congr_left
    intro q _
    by_cases hq : q.1 = k0
    · have hnone : pyLookup k0 rest = none :=
        pyLookup_eq_none_of_not_mem hndxs.1
      simp only [Function.comp_apply, hq, eq_self_iff_true, if_true, pyLookup, hnone]
    · have hne0 : ¬ k0 = q.1 := fun x => hq x.symm
      simp only [Function.comp_apply, hq, if_false, pyLookup, hne0]

theorem processAreaList_eq_map {entries : PyDict}
    (hnd : (entries.map Prod.fst).Nodup) :
    processAreaList entries = entries.map (fun p => (p.1, processAreaEntry p.2)) := by
  unfold processAreaList
  rw [foldl_areaUpdate_eq entries entries hnd
    (by
      intro p hp
      rw [show p = (p.1, p.2) from rfl] at hp
      rw [pyLookup_eq_some_of_mem_nodup hp hnd]
      rfl)
    hnd]
  apply List.map_congr_left
  intro q hq
  rw [show q = (q.1, q.2) from rfl] at hq
  rw [pyLookup_eq_some_of_mem_nodup hq hnd]

theorem processAreaEntry_fields (a : JValue) :
    ∃ m : PyDict, processAreaEntry a = .jobj m ∧
      ∀ f, f ∈ defaultAreaFields.map Prod.fst → (pyLookup f m).isSome = true := by
  cases a with
  | jobj m0 =>
    refine ⟨normalizeObj (setdefaultMany defaultAreaFields m0), rfl, ?_⟩
    intro f hf
    rw [pyLookup_normalizeObj, Option.isSome_map']
    exact pyLookup_setdefaultMany_isSome hf (by decide) m0
  | jnull => exact ⟨defaultAreaFields, rfl, by decide⟩
  | jbool b => exact ⟨defaultAreaFields, rfl, by decide⟩
  | jnum n => exact ⟨defaultAreaFields, rfl, by decide⟩
  | jstr s => exact ⟨defaultAreaFields, rfl, by decide⟩
  | jarr l => exact ⟨defaultAreaFields, rfl, by decide⟩

theorem normalize_not_jobj {v : JValue} (h : ∀ l : PyDict, v ≠ .jobj l) :
    ∀ l : PyDict, normalize_missing_markers v ≠ .jobj l := by
  intro l
  cases v with
  | jobj m => exact absurd rfl (h m)
  | jnull => simp [normalize_missing_markers]
  | jbool b => simp [normalize_missing_markers]
  | jnum n => simp [normalize_missing_markers]
  | jstr s =>
    simp only [normalize_missing_markers]
    by_cases hal : pyLower (pyStrip s) ∈ MISSING_ALIASES <;> simp [hal]
  | jarr m => simp [normalize_missing_markers]

theorem pyLookup_stages_ne {c : PyDict} {k : String}
    (h1 : k ≠ "Area_Wise_Observations") (h2 : k ≠ "Severity_Assessment")
    (h3 : k ≠ "Missing_or_Unclear_Information") :
    pyLookup k (dropPlaceholderGeneral (processAreas (fixMissing (fixSeverity
      (fixAreaType c))))) = pyLookup k c := by
  rw [pyLookup_dropPlaceholderGeneral_ne h1, pyLookup_processAreas_ne h1,
    pyLookup_fixMissing_ne h3, pyLookup_fixSeverity_ne h2, pyLookup_fixAreaType_ne h1]

theorem pyLookup_dropGeneralFromEntries_sub {e : PyDict}
    (hnd : (e.map Prod.fst).Nodup) {k : String} {v : JValue}
    (h : pyLookup k (dropGeneralFromEntries e) = some v) :
    pyLookup k e = some v := by
  unfold dropGeneralFromEntries at h
  cases hg : pyLookup "General" e with
  | none => rw [hg] at h; exact h
  | some g =>
    rw [hg] at h
    cases g with
    | jobj gm =>
      cases hpl : isPlaceholderGeneral gm with
      | true =>
        simp only [hpl, if_true] at h
        rw [pyLookup_pyPop_of_nodup hnd] at h
        by_cases hkG : k = "General"
        · rw [if_pos hkG] at h
          exact Option.noConfusion h
        · rw [if_neg hkG] at h
          exact h
      | false =>
        simp only [hpl, Bool.false_eq_true, if_false] at h
        exact h
    | jnull => exact h
    | jbool b => exact h
    | jnum n => exact h
    | jstr s => exact h
    | jarr l => exact h

/-- After the area-type stage, the area mapping holds the input value when it
was a mapping (with duplicate-free keys under well-formedness), and the empty
mapping otherwise. -/
theorem coerce_entries_exists (data : PyDict) (hwf : jwf (.jobj data) = true) :
    ∃ entries : PyDict, (entries.map Prod.fst).Nodup ∧
      pyLookup "Area_Wise_Observations"
        (fixAreaType (copyExpectedKeys (normalizeObj data))) = some (.jobj entries) := by
  rw [pyLookup_fixAreaType_self]
  rw [pyLookup_copyExpectedKeys _ _ (by decide)]
  rw [pyLookup_normalizeObj]
  cases hin : pyLookup "Area_Wise_Observations" data with
  | none => exact ⟨[], by simp, by rfl⟩
  | some v =>
    cases v with
    | jobj aw =>
      refine ⟨normalizeObj aw, ?_, by rfl⟩
      rw [map_fst_normalizeObj]
      exact jwf_jobj_nodup (jwf_lookup hwf hin)
    | jnull => exact ⟨[], by simp, by rfl⟩
    | jbool b => exact ⟨[], by simp, by rfl⟩
    | jnum n => exact ⟨[], by simp, by rfl⟩
    | jstr s =>
      refine ⟨[], by simp, ?_⟩
      simp only [Option.map_some', normalize_missing_markers]
      by_cases hal : pyLower (pyStrip s) ∈ MISSING_ALIASES <;> simp [hal]
    | jarr l => exact ⟨[], by simp, by rfl⟩

/-- C3: for every well-formed input mapping (any subset of the 8 required
keys, including none, and possibly wrong-typed container values), coercion
produces a document with all 8 top-level keys present;
`Area_Wise_Observations` is a mapping (a non-mapping input value is replaced
wholesale by the empty mapping); `Severity_Assessment` is a mapping with all
4 sub-keys present; `Missing_or_Unclear_Information` is a non-empty sequence;
every area entry of the result is a mapping with all 7 `AreaObservation`
sub-fields present; and a sub-field absent from a mapping-valued area entry
is backfilled with the sentinel "Not Available". -/
theorem coerce_schema_completeness (data : PyDict) (hwf : jwf (.jobj data) = true) :
    (∀ k, k ∈ EXPECTED_TOP_LEVEL_KEYS →
      (pyLookup k (coerce_to_schema_shape data)).isSome = true) ∧
    (∃ areas : PyDict,
      pyLookup "Area_Wise_Observations" (coerce_to_schema_shape data) =
        some (.jobj areas) ∧
      ∀ k v, pyLookup k areas = some v →
        ∃ m : PyDict, v = .jobj m ∧
          ∀ f, f ∈ defaultAreaFields.map Prod.fst → (pyLookup f m).isSome = true) ∧
    (∀ v, pyLookup "Area_Wise_Observations" data = some v →
      (∀ l : PyDict, v ≠ .jobj l) →
      pyLookup "Area_Wise_Observations" (coerce_to_schema_shape data) =
        some (.jobj [])) ∧
    (∃ sv : PyDict,
      pyLookup "Severity_Assessment" (coerce_to_schema_shape data) =
        some (.jobj sv) ∧
      ∀ f, f ∈ defaultSeverity.map Prod.fst → (pyLookup f sv).isSome = true) ∧
    (∃ ms : List JValue,
      pyLookup "Missing_or_Unclear_Information" (coerce_to_schema_shape data) =
        some (.jarr ms) ∧ ms ≠ []) ∧
    (∀ m0 : PyDict, ∀ f fv, (f, fv) ∈ defaultAreaFields → pyLookup f m0 = none →
      pyLookup f (normalizeObj (setdefaultMany defaultAreaFields m0)) = some fv) := by
  obtain ⟨entries, hndE, hE⟩ := coerce_entries_exists data hwf
  have hfinalAWO : pyLookup "Area_Wise_Observations" (coerce_to_schema_shape data) =
      some (.jobj (dropGeneralFromEntries (processAreaList entries))) := by
    unfold coerce_to_schema_shape
    have h3 : pyLookup "Area_Wise_Observations"
        (fixSeverity (fixAreaType (copyExpectedKeys (normalizeObj data)))) =
        some (.jobj entries) := by
      rw [pyLookup_fixSeverity_ne (by decide), hE]
    have h4 : pyLookup "Area_Wise_Observations"
        (fixMissing (fixSeverity (fixAreaType (copyExpectedKeys (normalizeObj data))))) =
        some (.jobj entries) := by
      rw [pyLookup_fixMissing_ne (by decide), h3]
    rw [pyLookup_dropPlaceholderGeneral_self (pyLookup_processAreas_self h4)]
  have hplist : processAreaList entries =
      entries.map (fun p => (p.1, processAreaEntry p.2)) := processAreaList_eq_map hndE
  have hndP : ((processAreaList entries).map Prod.fst).Nodup := by
    rw [hplist, List.map_map]
    exact hndE
  refine ⟨?_, ?_, ?_, ?_, ?_, ?_⟩
  · intro k hk
    by_cases n1 : k = "Area_Wise_Observations"
    · rw [n1, hfinalAWO]
      rfl
    · by_cases n2 : k = "Severity_Assessment"
      · subst n2
        unfold coerce_to_schema_shape
        rw [pyLookup_dropPlaceholderGeneral_ne (by decide),
          pyLookup_processAreas_ne (by decide), pyLookup_fixMissing_ne (by decide),
          pyLookup_fixSeverity_self]
        cases hsv : pyLookup "Severity_Assessment"
            (fixAreaType (copyExpectedKeys (normalizeObj data))) with
        | none => rfl
        | some v => cases v <;> rfl
      · by_cases n3 : k = "Missing_or_Unclear_Information"
        · subst n3
          unfold coerce_to_schema_shape
          rw [pyLookup_dropPlaceholderGeneral_ne (by decide),
            pyLookup_processAreas_ne (by decide), pyLookup_fixMissing_self]
          cases hms : pyLookup "Missing_or_Unclear_Information"
              (fixSeverity (fixAreaType (copyExpectedKeys (normalizeObj data)))) with
          | none => rfl
          | some v =>
            cases v with
            | jarr l => by_cases hl : l.isEmpty <;> simp [hl]
            | jnull => rfl
            | jbool b => rfl
            | jnum n => rfl
            | jstr s => rfl
            | jobj m => rfl
        · unfold coerce_to_schema_shape
          rw [pyLookup_stages_ne n1 n2 n3]
          rw [pyLookup_copyExpectedKeys _ _ hk]
          cases hkn : pyLookup k (normalizeObj data) with
          | some v => rfl
          | none =>
            fin_cases hk
            · rfl
            · exact absurd rfl n1
            · rfl
            · exact absurd rfl n2
            · rfl
            · rfl
            · rfl
            · exact absurd rfl n3
  · refine ⟨dropGeneralFromEntries (processAreaList entries), hfinalAWO, ?_⟩
    intro k v hkv
    have hsub : pyLookup k (processAreaList entries) = some v :=
      pyLookup_dropGeneralFromEntries_sub hndP hkv
    rw [hplist, pyLookup_mapValues processAreaEntry] at hsub
    cases hw : pyLookup k entries with
    | none =>
      rw [hw] at hsub
      exact Option.noConfusion hsub
    | some w =>
      rw [hw] at hsub
      simp only [Option.map_some'] at hsub
      obtain ⟨m, hm, hfields⟩ := processAreaEntry_fields w
      refine ⟨m, ?_, hfields⟩
      rw [← Option.some.inj hsub, hm]
  · intro v hv hnotobj
    have h0 : pyLookup "Area_Wise_Observations"
        (fixAreaType (copyExpectedKeys (normalizeObj data))) = some (.jobj []) := by
      rw [pyLookup_fixAreaType_self, pyLookup_copyExpectedKeys _ _ (by decide),
        pyLookup_normalizeObj, hv]
      simp only [Option.map_some']
      cases hnv : normalize_missing_markers v with
      | jobj l => exact absurd hnv (normalize_not_jobj hnotobj l)
      | jnull => rfl
      | jbool b => rfl
      | jnum n => rfl
      | jstr s => rfl
      | jarr l => rfl
    rw [h0] at hE
    have hent : entries = ([] : PyDict) := by
      have := Option.some.inj hE
      exact (JValue.jobj.inj this).symm
    rw [hfinalAWO, hent]
    rfl
  · unfold coerce_to_schema_shape
    rw [pyLookup_dropPlaceholderGeneral_ne (by decide),
      pyLookup_processAreas_ne (by decide), pyLookup_fixMissing_ne (by decide),
      pyLookup_fixSeverity_self]
    cases hsv : pyLookup "Severity_Assessment"
        (fixAreaType (copyExpectedKeys (normalizeObj data))) with
    | none => exact ⟨defaultSeverity, rfl, by decide⟩
    | some v =>
      cases v with
      | jobj sv =>
        refine ⟨normalizeObj (setdefaultMany defaultSeverity sv), rfl, ?_⟩
        intro f hf
        rw [pyLookup_normalizeObj, Option.isSome_map']
        exact pyLookup_setdefaultMany_isSome hf (by decide) sv
      | jnull => exact ⟨defaultSeverity, rfl, by decide⟩
      | jbool b => exact ⟨defaultSeverity, rfl, by decide⟩
      | jnum n => exact ⟨defaultSeverity, rfl, by decide⟩
      | jstr s => exact ⟨defaultSeverity, rfl, by decide⟩
      | jarr l => exact ⟨defaultSeverity, rfl, by decide⟩
  · unfold coerce_to_schema_shape
    rw [pyLookup_dropPlaceholderGeneral_ne (by decide),
      pyLookup_processAreas_ne (by decide), pyLookup_fixMissing_self]
    cases hms : pyLookup "Missing_or_Unclear_Information"
        (fixSeverity (fixAreaType (copyExpectedKeys (normalizeObj data)))) with
    | none => exact ⟨[.jstr "Not Available"], rfl, by simp⟩
    | some v =>
      cases v with
      | jarr l =>
        cases hl : l.isEmpty with
        | true =>
          simp only [hl, if_true]
          exact ⟨[.jstr "Not Available"], rfl, by simp⟩
        | false =>
          simp only [hl, Bool.false_eq_true, if_false]
          refine ⟨l, rfl, ?_⟩
          intro he
          rw [he] at hl
          simp at hl
      | jnull => exact ⟨[.jstr "Not Available"], rfl, by simp⟩
      | jbool b => exact ⟨[.jstr "Not Available"], rfl, by simp⟩
      | jnum n => exact ⟨[.jstr "Not Available"], rfl, by simp⟩
      | jstr s => exact ⟨[.jstr "Not Available"], rfl, by simp⟩
      | jobj m => exact ⟨[.jstr "Not Available"], rfl, by simp⟩
  · intro m0 f fv hmem habs
    rw [pyLookup_normalizeObj, pyLookup_setdefaultMany_absent hmem (by decide) habs]
    simp only [Option.map_some']
    have hfv : fv = .jstr "Not Available" := by
      simp only [defaultAreaFields, List.mem_cons, List.not_mem_nil, or_false] at hmem
      rcases hmem with h | h | h | h | h | h | h <;> exact congrArg Prod.snd h
    rw [hfv]
    rfl

theorem coerce_schema_completeness_witness :
    (pyLookup "Property_Issue_Summary"
      (coerce_to_schema_shape [("Area_Wise_Observations", .jstr "oops")])).isSome =
        true ∧
    pyLookup "Area_Wise_Observations"
      (coerce_to_schema_shape [("Area_Wise_Observations", .jstr "oops")]) =
      some (.jobj []) := by
  have h := coerce_schema_completeness [("Area_Wise_Observations", .jstr "oops")]
    (by decide)
  exact ⟨h.1 "Property_Issue_Summary" (by decide),
    h.2.2.1 (.jstr "oops") (by decide) (fun l => nofun)⟩



/-! ## Claim C6: idempotence of normalization and coercion -/

theorem pyLookup_isSome_iff_mem {k : String} {d : PyDict} :
    (pyLookup k d).isSome = true ↔ k ∈ d.map Prod.fst := by
  induction d with
  | nil => simp [pyLookup]
  | cons hd tl ih =>
    obtain ⟨k0, v0⟩ := hd
    by_cases h : k0 = k
    · subst h
      simp [pyLookup]
    · simp only [pyLookup, h, if_false, List.map_cons, List.mem_cons, ih]
      constructor
      · intro hm
        exact Or.inr hm
      · intro hm
        rcases hm with he | hm
        · exact absurd he.symm h
        · exact hm

theorem pyDict_ext : ∀ {d1 d2 : PyDict}, d1.map Prod.fst = d2.map Prod.fst →
    (d1.map Prod.fst).Nodup → (∀ k, pyLookup k d1 = pyLookup k d2) → d1 = d2 := by
  intro d1
  induction d1 with
  | nil =>
    intro d2 hk _ _
    cases d2 with
    | nil => rfl
    | cons p t => exact absurd hk (by simp)
  | cons p t ih =>
    intro d2 hk hnd hl
    obtain ⟨k0, v0⟩ := p
    cases d2 with
    | nil => exact absurd hk (by simp)
    | cons q t2 =>
      obtain ⟨k1, v1⟩ := q
      simp only [List.map_cons, List.cons.injEq] at hk
      obtain ⟨hkey, htkeys⟩ := hk
      subst hkey
      simp only [List.map_cons, List.nodup_cons] at hnd
      have hv : v0 = v1 := by
        have h0 := hl k0
        simp only [pyLookup, if_pos rfl] at h0
        exact Option.some.inj h0
      have htl : t = t2 := by
        apply ih htkeys hnd.2
        intro k
        by_cases hkk : k = k0
        · subst hkk
          rw [pyLookup_eq_none_of_not_mem hnd.1,
            pyLookup_eq_none_of_not_mem (htkeys ▸ hnd.1)]
        · have h0 := hl k
          simp only [pyLookup] at h0
          rw [if_neg (fun he => hkk he.symm), if_neg (fun he => hkk he.symm)] at h0
          exact h0
      rw [hv, htl]

theorem keys_pyUpdate_of_mem {k : String} {c : PyDict} (v : JValue)
    (h : k ∈ c.map Prod.fst) : (pyUpdate k v c).map Prod.fst = c.map Prod.fst :=
  keys_pyUpdate v (pyLookup_isSome_iff_mem.mpr h)

theorem keys_foldl_copyStep (n : PyDict) (ks : List String) (acc : PyDict)
    (hin : ∀ k ∈ ks, k ∈ acc.map Prod.fst) :
    (ks.foldl (copyStep n) acc).map Prod.fst = acc.map Prod.fst := by
  induction ks generalizing acc with
  | nil => rfl
  | cons a rest ih =>
    rw [List.foldl_cons]
    have hstep : (copyStep n acc a).map Prod.fst = acc.map Prod.fst := by
      unfold copyStep
      cases pyLookup a n with
      | none => rfl
      | some v => exact keys_pyUpdate_of_mem v (hin a (List.mem_cons_self a rest))
    have hrest : ∀ k ∈ rest, k ∈ (copyStep n acc a).map Prod.fst := by
      intro k hkr
      rw [hstep]
      exact hin k (List.mem_cons_of_mem a hkr)
    rw [ih (copyStep n acc a) hrest, hstep]

theorem keys_copyExpectedKeys (n : PyDict) :
    (copyExpectedKeys n).map Prod.fst = build_default_structure.map Prod.fst :=
  keys_foldl_copyStep n EXPECTED_TOP_LEVEL_KEYS build_default_structure (by decide)

theorem keys_fixAreaType {c : PyDict}
    (h : "Area_Wise_Observations" ∈ c.map Prod.fst) :
    (fixAreaType c).map Prod.fst = c.map Prod.fst := by
  unfold fixAreaType
  cases hv : pyLookup "Area_Wise_Observations" c with
  | none => exact keys_pyUpdate_of_mem _ h
  | some v => cases v <;> first | rfl | exact keys_pyUpdate_of_mem _ h

theorem keys_fixSeverity {c : PyDict}
    (h : "Severity_Assessment" ∈ c.map Prod.fst) :
    (fixSeverity c).map Prod.fst = c.map Prod.fst := by
  unfold fixSeverity
  cases hv : pyLookup "Severity_Assessment" c with
  | none => exact keys_pyUpdate_of_mem _ h
  | some v => cases v <;> exact keys_pyUpdate_of_mem _ h

theorem keys_fixMissing {c : PyDict}
    (h : "Missing_or_Unclear_Information" ∈ c.map Prod.fst) :
    (fixMissing c).map Prod.fst = c.map Prod.fst := by
  unfold fixMissing
  cases hv : pyLookup "Missing_or_Unclear_Information" c with
  | none => exact keys_pyUpdate_of_mem _ h
  | some v =>
    cases v with
    | jarr l =>
      cases hl : l.isEmpty with
      | true =>
        simp only [hl, if_true]
        exact keys_pyUpdate_of_mem _ h
      | false => simp only [hl, Bool.false_eq_true, if_false]
    | jnull => exact keys_pyUpdate_of_mem _ h
    | jbool b => exact keys_pyUpdate_of_mem _ h
    | jnum n => exact keys_pyUpdate_of_mem _ h
    | jstr s => exact keys_pyUpdate_of_mem _ h
    | jobj m => exact keys_pyUpdate_of_mem _ h

theorem keys_processAreas {c : PyDict}
    (h : "Area_Wise_Observations" ∈ c.map Prod.fst) :
    (processAreas c).map Prod.fst = c.map Prod.fst := by
  unfold processAreas
  cases hv : pyLookup "Area_Wise_Observations" c with
  | none => rfl
  | some v => cases v <;> first | rfl | exact keys_pyUpdate_of_mem _ h

theorem keys_dropPlaceholderGeneral {c : PyDict}
    (h : "Area_Wise_Observations" ∈ c.map Prod.fst) :
    (dropPlaceholderGeneral c).map Prod.fst = c.map Prod.fst := by
  unfold dropPlaceholderGeneral
  cases hv : pyLookup "Area_Wise_Observations" c with
  | none => rfl
  | some v => cases v <;> first | rfl | exact keys_pyUpdate_of_mem _ h

theorem keys_coerce (d : PyDict) :
    (coerce_to_schema_shape d).map Prod.fst = build_default_structure.map Prod.fst := by
  unfold coerce_to_schema_shape
  have h0 := keys_copyExpectedKeys (normalizeObj d)
  have hA1 : "Area_Wise_Observations" ∈
      (copyExpectedKeys (normalizeObj d)).map Prod.fst := by
    rw [h0]
    decide
  have h1 := keys_fixAreaType hA1
  have hS1 : "Severity_Assessment" ∈
      (fixAreaType (copyExpectedKeys (normalizeObj d))).map Prod.fst := by
    rw [h1, h0]
    decide
  have h2 := keys_fixSeverity hS1
  have hM1 : "Missing_or_Unclear_Information" ∈
      (fixSeverity (fixAreaType (copyExpectedKeys (normalizeObj d)))).map Prod.fst := by
    rw [h2, h1, h0]
    decide
  have h3 := keys_fixMissing hM1
  have hA2 : "Area_Wise_Observations" ∈
      (fixMissing (fixSeverity (fixAreaType
        (copyExpectedKeys (normalizeObj d))))).map Prod.fst := by
    rw [h3, h2, h1, h0]
    decide
  have h4 := keys_processAreas hA2
  have hA3 : "Area_Wise_Observations" ∈
      (processAreas (fixMissing (fixSeverity (fixAreaType
        (copyExpectedKeys (normalizeObj d)))))).map Prod.fst := by
    rw [h4, h3, h2, h1, h0]
    decide
  have h5 := keys_dropPlaceholderGeneral hA3
  rw [h5, h4, h3, h2, h1, h0]

theorem setdefaultMany_all_present {defaults : List (String × JValue)} {d : PyDict}
    (h : ∀ k ∈ defaults.map Prod.fst, (pyLookup k d).isSome = true) :
    setdefaultMany defaults d = d := by
  induction defaults with
  | nil => rfl
  | cons p rest ih =>
    obtain ⟨k0, v0⟩ := p
    rw [show setdefaultMany ((k0, v0) :: rest) d =
      setdefaultMany rest (pySetdefault k0 v0 d) from rfl]
    have h0 : pySetdefault k0 v0 d = d := by
      unfold pySetdefault
      have hs := h k0 (by simp)
      cases hlk : pyLookup k0 d with
      | none =>
        rw [hlk] at hs
        simp at hs
      | some w => rfl
    rw [h0]
    exact ih (fun k hk => h k (List.mem_cons_of_mem _ hk))

theorem processAreaEntry_idem (w : JValue) :
    processAreaEntry (processAreaEntry w) = processAreaEntry w := by
  cases w with
  | jobj m0 =>
    have hall : ∀ k ∈ defaultAreaFields.map Prod.fst,
        (pyLookup k (normalizeObj (setdefaultMany defaultAreaFields m0))).isSome = true := by
      intro k hk
      rw [pyLookup_normalizeObj, Option.isSome_map']
      exact pyLookup_setdefaultMany_isSome hk (by decide) m0
    show JValue.jobj (normalizeObj (setdefaultMany defaultAreaFields
        (normalizeObj (setdefaultMany defaultAreaFields m0)))) =
      JValue.jobj (normalizeObj (setdefaultMany defaultAreaFields m0))
    rw [setdefaultMany_all_present hall, normalizeObj_idem]
  | jnull => decide
  | jbool b => cases b <;> decide
  | jnum n =>
    show JValue.jobj (normalizeObj (setdefaultMany defaultAreaFields defaultAreaFields)) =
      JValue.jobj defaultAreaFields
    decide
  | jstr s =>
    show JValue.jobj (normalizeObj (setdefaultMany defaultAreaFields defaultAreaFields)) =
      JValue.jobj defaultAreaFields
    decide
  | jarr l =>
    show JValue.jobj (normalizeObj (setdefaultMany defaultAreaFields defaultAreaFields)) =
      JValue.jobj defaultAreaFields
    decide

theorem normalize_processAreaEntry (w : JValue) :
    normalize_missing_markers (processAreaEntry w) = processAreaEntry w := by
  cases w with
  | jobj m0 =>
    show JValue.jobj (normalizeObj (normalizeObj (setdefaultMany defaultAreaFields m0))) =
      JValue.jobj (normalizeObj (setdefaultMany defaultAreaFields m0))
    rw [normalizeObj_idem]
  | jnull => decide
  | jbool b =>
    show normalize_missing_markers (JValue.jobj defaultAreaFields) = JValue.jobj defaultAreaFields
    decide
  | jnum n =>
    show normalize_missing_markers (JValue.jobj defaultAreaFields) = JValue.jobj defaultAreaFields
    decide
  | jstr s =>
    show normalize_missing_markers (JValue.jobj defaultAreaFields) = JValue.jobj defaultAreaFields
    decide
  | jarr l =>
    show normalize_missing_markers (JValue.jobj defaultAreaFields) = JValue.jobj defaultAreaFields
    decide

theorem map_congr_id {α : Type} {f : α → α} {l : List α}
    (h : ∀ a ∈ l, f a = a) : l.map f = l := by
  calc l.map f = l.map id := List.map_congr_left (fun a ha => h a ha)
    _ = l := List.map_id l

theorem processAreaList_fix {e : PyDict} (hnd : (e.map Prod.fst).Nodup)
    (h : ∀ q ∈ e, ∃ w, q.2 = processAreaEntry w) :
    processAreaList e = e := by
  rw [processAreaList_eq_map hnd]
  apply map_congr_id
  intro q hq
  obtain ⟨w, hw⟩ := h q hq
  show (q.1, processAreaEntry q.2) = q
  rw [hw, processAreaEntry_idem, ← hw]

theorem normalizeObj_fix {e : PyDict}
    (h : ∀ q ∈ e, normalize_missing_markers q.2 = q.2) : normalizeObj e = e := by
  rw [normalizeObj_eq_map]
  apply map_congr_id
  intro q hq
  show (q.1, normalize_missing_markers q.2) = q
  rw [h q hq]

theorem mem_pyPop {k : String} {d : PyDict} {q : String × JValue}
    (h : q ∈ pyPop k d) : q ∈ d := by
  induction d with
  | nil => exact absurd h (by simp [pyPop])
  | cons p t ih =>
    obtain ⟨k0, v0⟩ := p
    simp only [pyPop] at h
    by_cases h0 : k0 = k
    · rw [if_pos h0] at h
      exact List.mem_cons_of_mem _ h
    · rw [if_neg h0] at h
      rcases List.mem_cons.mp h with he | ht
      · rw [he]
        exact List.mem_cons_self _ _
      · exact List.mem_cons_of_mem _ (ih ht)

theorem keys_pyPop_sublist (k : String) (d : PyDict) :
    ((pyPop k d).map Prod.fst).Sublist (d.map Prod.fst) := by
  induction d with
  | nil => simp [pyPop]
  | cons p t ih =>
    obtain ⟨k0, v0⟩ := p
    simp only [pyPop]
    by_cases h0 : k0 = k
    · rw [if_pos h0]
      simp only [List.map_cons]
      exact List.Sublist.cons _ (List.Sublist.refl _)
    · rw [if_neg h0]
      simp only [List.map_cons]
      exact List.Sublist.cons₂ _ ih

theorem dropGeneralFromEntries_cases (P : PyDict) :
    dropGeneralFromEntries P = P ∨ dropGeneralFromEntries P = pyPop "General" P := by
  unfold dropGeneralFromEntries
  cases hg : pyLookup "General" P with
  | none => exact Or.inl rfl
  | some g =>
    cases g with
    | jobj gm =>
      cases hpl : isPlaceholderGeneral gm with
      | true => exact Or.inr (by simp [hpl])
      | false => exact Or.inl (by simp [hpl])
    | jnull => exact Or.inl rfl
    | jbool b => exact Or.inl rfl
    | jnum n => exact Or.inl rfl
    | jstr s => exact Or.inl rfl
    | jarr l => exact Or.inl rfl

theorem dropGeneralFromEntries_keys_nodup {P : PyDict}
    (hnd : (P.map Prod.fst).Nodup) :
    ((dropGeneralFromEntries P).map Prod.fst).Nodup := by
  rcases dropGeneralFromEntries_cases P with h | h <;> rw [h]
  · exact hnd
  · exact List.Nodup.sublist (keys_pyPop_sublist _ _) hnd

theorem mem_dropGeneralFromEntries {P : PyDict} {q : String × JValue}
    (h : q ∈ dropGeneralFromEntries P) : q ∈ P := by
  rcases dropGeneralFromEntries_cases P with he | he <;> rw [he] at h
  · exact h
  · exact mem_pyPop h

theorem dropGeneralFromEntries_idem {P : PyDict} (hnd : (P.map Prod.fst).Nodup) :
    dropGeneralFromEntries (dropGeneralFromEntries P) = dropGeneralFromEntries P := by
  cases hg : pyLookup "General" P with
  | none =>
    have h1 : dropGeneralFromEntries P = P := by
      unfold dropGeneralFromEntries
      rw [hg]
    rw [h1, h1]
  | some g =>
    cases g with
    | jobj gm =>
      cases hpl : isPlaceholderGeneral gm with
      | false =>
        have h1 : dropGeneralFromEntries P = P := by
          unfold dropGeneralFromEntries
          rw [hg]
          simp [hpl]
        rw [h1, h1]
      | true =>
        have h1 : dropGeneralFromEntries P = pyPop "General" P := by
          unfold dropGeneralFromEntries
          rw [hg]
          simp [hpl]
        have h2 : pyLookup "General" (pyPop "General" P) = none := by
          rw [pyLookup_pyPop_of_nodup hnd, if_pos rfl]
        rw [h1]
        unfold dropGeneralFromEntries
        rw [h2]
    | jnull =>
      have h1 : dropGeneralFromEntries P = P := by
        unfold dropGeneralFromEntries
        rw [hg]
      rw [h1, h1]
    | jbool b =>
      have h1 : dropGeneralFromEntries P = P := by
        unfold dropGeneralFromEntries
        rw [hg]
      rw [h1, h1]
    | jnum n =>
      have h1 : dropGeneralFromEntries P = P := by
        unfold dropGeneralFromEntries
        rw [hg]
      rw [h1, h1]
    | jstr s =>
      have h1 : dropGeneralFromEntries P = P := by
        unfold dropGeneralFromEntries
        rw [hg]
      rw [h1, h1]
    | jarr l =>
      have h1 : dropGeneralFromEntries P = P := by
        unfold dropGeneralFromEntries
        rw [hg]
      rw [h1, h1]

theorem normalize_not_jarr {v : JValue} (h : ∀ l : List JValue, v ≠ .jarr l) :
    ∀ l : List JValue, normalize_missing_markers v ≠ .jarr l := by
  intro l
  cases v with
  | jarr m => exact absurd rfl (h m)
  | jnull => simp [normalize_missing_markers]
  | jbool b => simp [normalize_missing_markers]
  | jnum n => simp [normalize_missing_markers]
  | jstr s =>
    simp only [normalize_missing_markers]
    by_cases hal : pyLower (pyStrip s) ∈ MISSING_ALIASES <;> simp [hal]
  | jobj m => simp [normalize_missing_markers]

/-- Characterization of a coerced document needed for idempotence: its
special values are fixed points of the stages that touch them, and its other
values are fixed points of normalization. -/
theorem coerce_fixpoint_data (d : PyDict) (hwf : jwf (.jobj d) = true) :
    (∃ awE : PyDict,
      pyLookup "Area_Wise_Observations" (coerce_to_schema_shape d) = some (.jobj awE) ∧
      normalizeObj awE = awE ∧ processAreaList awE = awE ∧
      dropGeneralFromEntries awE = awE) ∧
    (∃ svE : PyDict,
      pyLookup "Severity_Assessment" (coerce_to_schema_shape d) = some (.jobj svE) ∧
      normalizeObj svE = svE ∧ setdefaultMany defaultSeverity svE = svE) ∧
    (∃ mL : List JValue,
      pyLookup "Missing_or_Unclear_Information" (coerce_to_schema_shape d) =
        some (.jarr mL) ∧ normalizeArr mL = mL ∧ mL.isEmpty = false) ∧
    (∀ k, k ≠ "Area_Wise_Observations" → k ≠ "Severity_Assessment" →
      k ≠ "Missing_or_Unclear_Information" →
      ∀ w, pyLookup k (coerce_to_schema_shape d) = some w →
        normalize_missing_markers w = w) := by
  obtain ⟨entries, hndE, hE⟩ := coerce_entries_exists d hwf
  have hfinalAWO : pyLookup "Area_Wise_Observations" (coerce_to_schema_shape d) =
      some (.jobj (dropGeneralFromEntries (processAreaList entries))) := by
    unfold coerce_to_schema_shape
    have h3 : pyLookup "Area_Wise_Observations"
        (fixSeverity (fixAreaType (copyExpectedKeys (normalizeObj d)))) =
        some (.jobj entries) := by
      rw [pyLookup_fixSeverity_ne (by decide), hE]
    have h4 : pyLookup "Area_Wise_Observations"
        (fixMissing (fixSeverity (fixAreaType (copyExpectedKeys (normalizeObj d))))) =
        some (.jobj entries) := by
      rw [pyLookup_fixMissing_ne (by decide), h3]
    rw [pyLookup_dropPlaceholderGeneral_self (pyLookup_processAreas_self h4)]
  have hplist : processAreaList entries =
      entries.map (fun p => (p.1, processAreaEntry p.2)) := processAreaList_eq_map hndE
  have hndP : ((processAreaList entries).map Prod.fst).Nodup := by
    rw [hplist, List.map_map]
    exact hndE
  have hPimg : ∀ q ∈ processAreaList entries, ∃ w, q.2 = processAreaEntry w := by
    intro q hq
    rw [hplist] at hq
    obtain ⟨p, hp, hqe⟩ := List.mem_map.mp hq
    exact ⟨p.2, by rw [← hqe]⟩
  have hndA : ((dropGeneralFromEntries (processAreaList entries)).map Prod.fst).Nodup :=
    dropGeneralFromEntries_keys_nodup hndP
  have hAimg : ∀ q ∈ dropGeneralFromEntries (processAreaList entries),
      ∃ w, q.2 = processAreaEntry w :=
    fun q hq => hPimg q (mem_dropGeneralFromEntries hq)
  refine ⟨⟨dropGeneralFromEntries (processAreaList entries), hfinalAWO, ?_, ?_, ?_⟩,
    ?_, ?_, ?_⟩
  · apply normalizeObj_fix
    intro q hq
    obtain ⟨w, hw⟩ := hAimg q hq
    rw [hw, normalize_processAreaEntry]
  · exact processAreaList_fix hndA hAimg
  · exact dropGeneralFromEntries_idem hndP
  · unfold coerce_to_schema_shape
    rw [pyLookup_dropPlaceholderGeneral_ne (by decide),
      pyLookup_processAreas_ne (by decide), pyLookup_fixMissing_ne (by decide),
      pyLookup_fixSeverity_self]
    cases hs : pyLookup "Severity_Assessment" d with
    | none =>
      have hyn : pyLookup "Severity_Assessment"
          (fixAreaType (copyExpectedKeys (normalizeObj d))) =
          some (.jobj defaultSeverity) := by
        rw [pyLookup_fixAreaType_ne (by decide),
          pyLookup_copyExpectedKeys _ _ (by decide), pyLookup_normalizeObj, hs]
        rfl
      rw [hyn]
      exact ⟨normalizeObj (setdefaultMany defaultSeverity defaultSeverity), rfl,
        by decide, by decide⟩
    | some v0 =>
      by_cases hobj : ∃ sv0 : PyDict, v0 = .jobj sv0
      · obtain ⟨sv0, rfl⟩ := hobj
        have hyn : pyLookup "Severity_Assessment"
            (fixAreaType (copyExpectedKeys (normalizeObj d))) =
            some (.jobj (normalizeObj sv0)) := by
          rw [pyLookup_fixAreaType_ne (by decide),
            pyLookup_copyExpectedKeys _ _ (by decide), pyLookup_normalizeObj, hs]
          rfl
        rw [hyn]
        refine ⟨normalizeObj (setdefaultMany defaultSeverity (normalizeObj sv0)), rfl,
          normalizeObj_idem _, ?_⟩
        apply setdefaultMany_all_present
        intro k hk
        rw [pyLookup_normalizeObj, Option.isSome_map']
        exact pyLookup_setdefaultMany_isSome hk (by decide) (normalizeObj sv0)
      · have hno : ∀ l : PyDict, v0 ≠ .jobj l := fun l h => hobj ⟨l, h⟩
        have hyn : pyLookup "Severity_Assessment"
            (fixAreaType (copyExpectedKeys (normalizeObj d))) =
            some (normalize_missing_markers v0) := by
          rw [pyLookup_fixAreaType_ne (by decide),
            pyLookup_copyExpectedKeys _ _ (by decide), pyLookup_normalizeObj, hs]
          rfl
        rw [hyn]
        refine ⟨defaultSeverity, ?_, by decide, by decide⟩
        cases hnv : normalize_missing_markers v0 with
        | jobj l => exact absurd hnv (normalize_not_jobj hno l)
        | jnull => rfl
        | jbool b => rfl
        | jnum n => rfl
        | jstr s => rfl
        | jarr l => rfl
  · unfold coerce_to_schema_shape
    rw [pyLookup_dropPlaceholderGeneral_ne (by decide),
      pyLookup_processAreas_ne (by decide), pyLookup_fixMissing_self]
    cases hm : pyLookup "Missing_or_Unclear_Information" d with
    | none =>
      have hyn : pyLookup "Missing_or_Unclear_Information"
          (fixSeverity (fixAreaType (copyExpectedKeys (normalizeObj d)))) =
          some (.jarr [.jstr "Not Available"]) := by
        rw [pyLookup_fixSeverity_ne (by decide), pyLookup_fixAreaType_ne (by decide),
          pyLookup_copyExpectedKeys _ _ (by decide), pyLookup_normalizeObj, hm]
        rfl
      rw [hyn]
      exact ⟨[.jstr "Not Available"], by decide, by decide, by decide⟩
    | some v0 =>
      by_cases harr : ∃ l0 : List JValue, v0 = .jarr l0
      · obtain ⟨l0, rfl⟩ := harr
        have hyn : pyLookup "Missing_or_Unclear_Information"
            (fixSeverity (fixAreaType (copyExpectedKeys (normalizeObj d)))) =
            some (.jarr (normalizeArr l0)) := by
          rw [pyLookup_fixSeverity_ne (by decide), pyLookup_fixAreaType_ne (by decide),
            pyLookup_copyExpectedKeys _ _ (by decide), pyLookup_normalizeObj, hm]
          rfl
        rw [hyn]
        cases hl : (normalizeArr l0).isEmpty with
        | true =>
          refine ⟨[.jstr "Not Available"], ?_, by decide, by decide⟩
          simp [hl]
        | false =>
          refine ⟨normalizeArr l0, ?_, normalizeArr_idem l0, hl⟩
          simp [hl]
      · have hno : ∀ l : List JValue, v0 ≠ .jarr l := fun l h => harr ⟨l, h⟩
        have hyn : pyLookup "Missing_or_Unclear_Information"
            (fixSeverity (fixAreaType (copyExpectedKeys (normalizeObj d)))) =
            some (normalize_missing_markers v0) := by
          rw [pyLookup_fixSeverity_ne (by decide), pyLookup_fixAreaType_ne (by decide),
            pyLookup_copyExpectedKeys _ _ (by decide), pyLookup_normalizeObj, hm]
          rfl
        rw [hyn]
        refine ⟨[.jstr "Not Available"], ?_, by decide, by decide⟩
        cases hnv : normalize_missing_markers v0 with
        | jarr l => exact absurd hnv (normalize_not_jarr hno l)
        | jnull => rfl
        | jbool b => rfl
        | jnum n => rfl
        | jstr s => rfl
        | jobj m => rfl
  · intro k n1 n2 n3 w hw
    by_cases hk : k ∈ EXPECTED_TOP_LEVEL_KEYS
    · unfold coerce_to_schema_shape at hw
      rw [pyLookup_stages_ne n1 n2 n3, pyLookup_copyExpectedKeys _ _ hk,
        pyLookup_normalizeObj] at hw
      cases hk0 : pyLookup k d with
      | some v0 =>
        rw [hk0] at hw
        simp only [Option.map_some'] at hw
        rw [← Option.some.inj hw]
        exact normalize_idem v0
      | none =>
        rw [hk0] at hw
        simp only [Option.map_none'] at hw
        fin_cases hk
        · cases Option.some.inj hw
          decide
        · exact absurd rfl n1
        · cases Option.some.inj hw
          decide
        · exact absurd rfl n2
        · cases Option.some.inj hw
          decide
        · cases Option.some.inj hw
          decide
        · cases Option.some.inj hw
          decide
        · exact absurd rfl n3
    · have hnone : pyLookup k (coerce_to_schema_shape d) = none := by
        apply pyLookup_eq_none_of_not_mem
        rw [keys_coerce]
        intro hm
        apply hk
        have hlists : build_default_structure.map Prod.fst = EXPECTED_TOP_LEVEL_KEYS := by
          decide
        rw [hlists] at hm
        exact hm
      rw [hnone] at hw
      exact Option.noConfusion hw

/-- C6 counterexample: a document that `DDRReport.model_validate` accepts
verbatim yet `coerce_to_schema_shape` changes, because validation strips
string values only transiently while coercion rewrites them in place: the
untrimmed `Property_Issue_Summary` " Leaky roof " passes validation but is
trimmed by coercion, so coercion is not the identity on validator-accepted
documents. -/
theorem coerce_changes_valid_untrimmed_doc :
    exceptOk (DDRReport.model_validate validUntrimmedDoc) = true ∧
    coerce_to_schema_shape validUntrimmedDoc ≠ validUntrimmedDoc := by
  decide

/-- C6 (amended): normalization is idempotent on every value tree; coercion
is idempotent on its own outputs, i.e. re-coercing an already-coerced
well-formed document is a no-op.  (Coercion is not the identity on every
validator-accepted schema-shaped document, since validation tolerates
surrounding whitespace that coercion strips.) -/
theorem normalize_coerce_idempotent_amended :
    (∀ t : JValue, normalize_missing_markers (normalize_missing_markers t) =
      normalize_missing_markers t) ∧
    (∀ d : PyDict, jwf (.jobj d) = true →
      coerce_to_schema_shape (coerce_to_schema_shape d) = coerce_to_schema_shape d) := by
  refine ⟨normalize_idem, ?_⟩
  intro d hwf
  obtain ⟨⟨awE, hA, hAn, hAp, hAd⟩, ⟨svE, hS, hSn, hSs⟩, ⟨mL, hM, hMn, hMe⟩, hrest⟩ :=
    coerce_fixpoint_data d hwf
  have hkeysE : (coerce_to_schema_shape d).map Prod.fst =
      build_default_structure.map Prod.fst := keys_coerce d
  generalize hEdef : coerce_to_schema_shape d = E at hA hS hM hrest hkeysE ⊢
  apply pyDict_ext
  · rw [keys_coerce, hkeysE]
  · rw [keys_coerce]
    decide
  · intro k
    by_cases n1 : k = "Area_Wise_Observations"
    · subst n1
      rw [hA]
      have hEn : pyLookup "Area_Wise_Observations" (normalizeObj E) =
          some (.jobj awE) := by
        rw [pyLookup_normalizeObj, hA]
        show some (JValue.jobj (normalizeObj awE)) = some (JValue.jobj awE)
        rw [hAn]
      have h1 : pyLookup "Area_Wise_Observations"
          (fixAreaType (copyExpectedKeys (normalizeObj E))) = some (.jobj awE) := by
        rw [pyLookup_fixAreaType_self, pyLookup_copyExpectedKeys _ _ (by decide), hEn]
      have h2 : pyLookup "Area_Wise_Observations"
          (fixMissing (fixSeverity (fixAreaType (copyExpectedKeys (normalizeObj E))))) =
          some (.jobj awE) := by
        rw [pyLookup_fixMissing_ne (by decide), pyLookup_fixSeverity_ne (by decide), h1]
      unfold coerce_to_schema_shape
      rw [pyLookup_dropPlaceholderGeneral_self (pyLookup_processAreas_self h2), hAp, hAd]
    · by_cases n2 : k = "Severity_Assessment"
      · subst n2
        rw [hS]
        have hEn : pyLookup "Severity_Assessment" (normalizeObj E) =
            some (.jobj svE) := by
          rw [pyLookup_normalizeObj, hS]
          show some (JValue.jobj (normalizeObj svE)) = some (JValue.jobj svE)
          rw [hSn]
        have h1 : pyLookup "Severity_Assessment"
            (fixAreaType (copyExpectedKeys (normalizeObj E))) = some (.jobj svE) := by
          rw [pyLookup_fixAreaType_ne (by decide),
            pyLookup_copyExpectedKeys _ _ (by decide), hEn]
        unfold coerce_to_schema_shape
        rw [pyLookup_dropPlaceholderGeneral_ne (by decide),
          pyLookup_processAreas_ne (by decide), pyLookup_fixMissing_ne (by decide),
          pyLookup_fixSeverity_self, h1]
        show some (JValue.jobj (normalizeObj (setdefaultMany defaultSeverity svE))) =
          some (JValue.jobj svE)
        rw [hSs, hSn]
      · by_cases n3 : k = "Missing_or_Unclear_Information"
        · subst n3
          rw [hM]
          have hEn : pyLookup "Missing_or_Unclear_Information" (normalizeObj E) =
              some (.jarr mL) := by
            rw [pyLookup_normalizeObj, hM]
            show some (JValue.jarr (normalizeArr mL)) = some (JValue.jarr mL)
            rw [hMn]
          have h1 : pyLookup "Missing_or_Unclear_Information"
              (fixSeverity (fixAreaType (copyExpectedKeys (normalizeObj E)))) =
              some (.jarr mL) := by
            rw [pyLookup_fixSeverity_ne (by decide), pyLookup_fixAreaType_ne (by decide),
              pyLookup_copyExpectedKeys _ _ (by decide), hEn]
          unfold coerce_to_schema_shape
          rw [pyLookup_dropPlaceholderGeneral_ne (by decide),
            pyLookup_processAreas_ne (by decide), pyLookup_fixMissing_self, h1]
          show (if mL.isEmpty then some (JValue.jarr [JValue.jstr "Not Available"])
            else some (JValue.jarr mL)) = some (JValue.jarr mL)
          simp only [hMe, Bool.false_eq_true, if_false]
        · by_cases hk : k ∈ EXPECTED_TOP_LEVEL_KEYS
          · have hmem : k ∈ E.map Prod.fst := by
              rw [hkeysE]
              have hlists : build_default_structure.map Prod.fst =
                  EXPECTED_TOP_LEVEL_KEYS := by decide
              rw [hlists]
              exact hk
            have hsome := pyLookup_isSome_iff_mem.mpr hmem
            cases hw : pyLookup k E with
            | none =>
              rw [hw] at hsome
              simp at hsome
            | some w =>
              unfold coerce_to_schema_shape
              rw [pyLookup_stages_ne n1 n2 n3, pyLookup_copyExpectedKeys _ _ hk,
                pyLookup_normalizeObj, hw]
              show some (normalize_missing_markers w) = some w
              rw [hrest k n1 n2 n3 w hw]
          · have hnotbd : k ∉ build_default_structure.map Prod.fst := by
              intro hm
              apply hk
              have hlists : build_default_structure.map Prod.fst =
                  EXPECTED_TOP_LEVEL_KEYS := by decide
              rw [hlists] at hm
              exact hm
            have h1 : pyLookup k (coerce_to_schema_shape E) = none := by
              apply pyLookup_eq_none_of_not_mem
              rw [keys_coerce]
              exact hnotbd
            have h2 : pyLookup k E = none := by
              apply pyLookup_eq_none_of_not_mem
              rw [hkeysE]
              exact hnotbd
            rw [h1, h2]

theorem normalize_coerce_idempotent_amended_witness :
    normalize_missing_markers (normalize_missing_markers (.jstr " n/a ")) =
      normalize_missing_markers (.jstr " n/a ") ∧
    coerce_to_schema_shape (coerce_to_schema_shape
        [("Additional_Notes", .jstr " note ")]) =
      coerce_to_schema_shape [("Additional_Notes", .jstr " note ")] :=
  ⟨normalize_coerce_idempotent_amended.1 (.jstr " n/a "),
   normalize_coerce_idempotent_amended.2 [("Additional_Notes", .jstr " note ")]
     (by decide)⟩


end DDR
